import Mathlib

/-!
Verification of the Blueprint Validation & Compatibility Resolution Engine
of the make-mcp server (src/mcp/server.ts).

The development shallowly embeds the relevant TypeScript functions as Lean
definitions over an explicit tree model of scenario blueprints:

* string helpers (`normalizeModuleId`, `tokenizeModulePart`, substring tests);
* the static registries `VERIFIED_MODULE_VERSIONS` and `PROBLEMATIC_MODULES`;
* the live-catalog compatibility resolver `resolveClosestLiveModule`;
* the blueprint tree model (flows, nodes, router routes) and the recursive
  tree transformations used by `create_scenario` (schedule normalization,
  metadata/designer healing, route-filter stripping, verified-version
  injection, module remapping, version stripping/setting);
* the recursive validator behind `validate_scenario`;
* the bounded retry loop of `create_scenario`, with deployment responses
  modelled as an adversarial input sequence (the fields of `ErrInfo` are the
  results of the regex extractors `extractIm007ModuleId` /
  `extractIm007Version` applied to the opaque response body).

JavaScript dynamic values are modelled as follows: a flow entry that is not
an object is `Item.nonObject`; a `module` property that is absent or not a
string is `none`; an absent-or-falsy `metadata` is `none`; numbers are `Int`
(scores are exact `Rat`; for the tiny integer ratios produced by the token
scorer, IEEE double division in the source is exact enough that the order of
any two scores agrees with the rational order). Floats, the network, and the
SQLite module database are outside the embedding; the database is an
explicit parameter `Catalog` (the source consults it read-only through
`db.getModule`).
-/

/-- Contiguous-sublist test on character lists. -/
def charsInfix (pat : List Char) : List Char → Bool
  | [] => pat.isEmpty
  | c :: rest => pat.isPrefixOf (c :: rest) || charsInfix pat rest

/-- JS `s.includes(pat)`: contiguous substring test. -/
def strContains (s pat : String) : Bool :=
  charsInfix pat.data s.data

/-- JS `s.split(sep)` for a one-character separator (splitting on every
occurrence, keeping empty pieces), written as a structural recursion so that
it evaluates inside the kernel. -/
def splitOnCharAux (sep : Char) (cur : List Char) : List Char → List String
  | [] => [String.mk cur.reverse]
  | c :: rest =>
    if c == sep then String.mk cur.reverse :: splitOnCharAux sep [] rest
    else splitOnCharAux sep (c :: cur) rest

def splitOnChar (sep : Char) (s : String) : List String :=
  splitOnCharAux sep [] s.data

/-- JS `s.startsWith(pre)`. -/
def startsWithB (s pre : String) : Bool :=
  pre.data.isPrefixOf s.data

/-- JS `s.trim()` is truthy, i.e. the string has a non-whitespace character. -/
def trimNonempty (s : String) : Bool :=
  s.data.any (fun c => !c.isWhitespace)

/-- Lower-case a string (the module ids involved are ASCII). -/
def lowerStr (s : String) : String :=
  String.mk (s.data.map Char.toLower)

/-- `normalizeModuleId` from server.ts: lower-case, then drop every character
outside `[a-z0-9:]`. -/
def normalizeModuleId (moduleId : String) : String :=
  String.mk ((moduleId.data.map Char.toLower).filter
    (fun c => c.isLower || c.isDigit || c == ':'))

/-- The camel-case boundary pass of `tokenizeModulePart`:
`value.replace(/([a-z])([A-Z])/g, "$1 $2")` inserts a space between a
lower-case letter and an immediately following upper-case letter. -/
def camelBoundaries : List Char → List Char
  | [] => []
  | [c] => [c]
  | a :: b :: rest =>
    if a.isLower && b.isUpper then a :: ' ' :: camelBoundaries (b :: rest)
    else a :: camelBoundaries (b :: rest)

def wordsAux (cur : List Char) : List Char → List String
  | [] => [String.mk cur.reverse]
  | c :: rest =>
    if c.isWhitespace then String.mk cur.reverse :: wordsAux [] rest
    else wordsAux (c :: cur) rest

/-- `tokenizeModulePart` from server.ts: split camel-case boundaries, replace
non-alphanumeric runs by spaces, lower-case, split on whitespace, drop empty
tokens. -/
def tokenizeModulePart (value : String) : List String :=
  (wordsAux [] ((camelBoundaries value.data).map
      (fun c => if c.isAlphanum then c.toLower else ' '))).filter
    (fun t => t ≠ "")

/-- Keep the first occurrence of each element (JS `Set` / `Map` insertion
order). -/
def firstOccurrencesAux (seen : List String) : List String → List String
  | [] => []
  | a :: rest =>
    if seen.contains a then firstOccurrencesAux seen rest
    else a :: firstOccurrencesAux (a :: seen) rest

def firstOccurrences (l : List String) : List String :=
  firstOccurrencesAux [] l

/-- `VERIFIED_MODULE_VERSIONS` from server.ts: module id to known-good
version. -/
def verifiedModuleVersions : String → Option Int
  | "json:ParseJSON" => some 1
  | "json:CreateJSON" => some 1
  | "json:TransformToJSON" => some 1
  | "gateway:CustomWebHook" => some 1
  | "gateway:WebhookRespond" => some 1
  | "builtin:BasicRouter" => some 1
  | "builtin:BasicFeeder" => some 1
  | "builtin:BasicAggregator" => some 1
  | "http:ActionSendData" => some 3
  | "http:ActionSendDataBasicAuth" => some 3
  | "http:ActionGetFile" => some 3
  | "http:ActionSendDataAdvanced" => some 3
  | "google-sheets:ActionAddRow" => some 1
  | "google-sheets:ActionUpdateRow" => some 1
  | "google-sheets:ActionDeleteRow" => some 1
  | "util:SetVariable" => some 1
  | "util:GetVariable" => some 1
  | "util:SetMultipleVariables" => some 1
  | "slack:ActionPostMessage" => some 1
  | "datastore:ActionGetRecord" => some 1
  | "datastore:ActionAddRecord" => some 1
  | "datastore:ActionUpdateRecord" => some 1
  | "datastore:ActionDeleteRecord" => some 1
  | "datastore:ActionSearchRecords" => some 1
  | _ => none

/-- The value type of the `PROBLEMATIC_MODULES` denylist. -/
structure ProblemInfo where
  alternative : String
  reason : String
deriving DecidableEq, Repr

/-- The literal `PROBLEMATIC_MODULES` table from server.ts. -/
def problematicModulesTable : String → Option ProblemInfo
  | "openai:ActionCreateCompletion" => some
      ⟨"http:ActionSendData",
       "OpenAI modules often fail via API deployment. Use http:ActionSendData (v3) to call the OpenAI API directly at https://api.openai.com/v1/chat/completions."⟩
  | "openai-gpt-3:ActionCreateCompletion" => some
      ⟨"http:ActionSendData",
       "OpenAI modules often fail via API deployment. Use http:ActionSendData (v3) to call the OpenAI API directly."⟩
  | "openai-gpt-3:ActionCreateChatCompletion" => some
      ⟨"http:ActionSendData",
       "OpenAI modules often fail via API deployment. Use http:ActionSendData (v3) to call the OpenAI API directly."⟩
  | "openai:ActionAnalyzeImages" => some
      ⟨"http:ActionSendData",
       "OpenAI modules often fail via API deployment. Use http:ActionSendData (v3) to call the OpenAI API directly."⟩
  | "openai:ActionCreateImage" => some
      ⟨"http:ActionSendData",
       "OpenAI image modules often fail via API deployment. Use http:ActionSendData (v3) to call the OpenAI DALL-E API directly."⟩
  | "email:ActionSendEmail" => some
      ⟨"microsoft-smtp-imap:ActionSendAnEmail",
       "Generic email module may not be available. Use a specific provider module (Gmail, Microsoft SMTP/IMAP) or http:ActionSendData with an email API."⟩
  | "ai-provider:ActionChatCompletion" => some
      ⟨"http:ActionSendData",
       "AI Provider module may not be deployable via API. Use http:ActionSendData to call AI APIs directly."⟩
  | _ => none

/-- `getProblematicModuleInfo` from server.ts: direct table hit, then the
broad `openai` / `openai-gpt-3` app-prefix match. -/
def getProblematicModuleInfo (moduleId : String) : Option ProblemInfo :=
  match problematicModulesTable moduleId with
  | some pi => some pi
  | none =>
    let appPrefix := (splitOnChar ':' moduleId).getD 0 ""
    if appPrefix == "openai" || appPrefix == "openai-gpt-3" then
      some ⟨"http:ActionSendData",
        "OpenAI modules (" ++ moduleId ++ ") often fail via API deployment. Use http:ActionSendData (v3) to call the OpenAI API directly."⟩
    else none

/-- The token-overlap count of a candidate against the target token set:
candidate tokens lying in the set are counted with multiplicity.  A score is
kept as the exact fraction `(overlap, max(|targetTokens|, 1))`; on these
tiny integer ratios the IEEE double division and comparison of the source
agree with the exact rational comparison by cross-multiplication used
below. -/
def scorePair (targetTokens : List String) (candidate : String) : Nat × Nat :=
  let candidatePart := (splitOnChar ':' candidate).getD 1 ""
  let candidateTokens := tokenizeModulePart candidatePart
  let overlap := (candidateTokens.filter (fun t => targetTokens.contains t)).length
  (overlap, max targetTokens.length 1)

/-- Exact strict comparison of two scores. -/
def scoreLt (a b : Nat × Nat) : Bool :=
  Nat.blt (a.1 * b.2) (b.1 * a.2)

/-- The score of a candidate as the rational number the specification talks
about. -/
def candidateScore (targetTokens : List String) (candidate : String) : Rat :=
  ((scorePair targetTokens candidate).1 : Rat) /
    ((scorePair targetTokens candidate).2 : Rat)

/-- The best-candidate selection loop of `resolveClosestLiveModule`: the
first candidate with a strictly larger score replaces the current best. -/
def bestLoop (targetTokens : List String) :
    Option (String × (Nat × Nat)) → List String → Option (String × (Nat × Nat))
  | best, [] => best
  | best, c :: cs =>
    let score := scorePair targetTokens c
    let best2 := match best with
      | none => some (c, score)
      | some (b, bs) => if scoreLt bs score then some (c, score) else some (b, bs)
    bestLoop targetTokens best2 cs

/-- `resolveClosestLiveModule` from server.ts.  The live catalog `Set` is a
list in insertion order; stage 1 is exact membership, stage 2 accepts a
unique normalized collision, stage 3 is the namespace-restricted
token-overlap match with a 0.5 confidence floor (`score < 0.5` is the exact
comparison `scoreLt score (1, 2)`). -/
def resolveClosestLiveModule (moduleId : String) (liveIds : List String) :
    Option String :=
  if liveIds.contains moduleId then some moduleId
  else
    let moduleNorm := normalizeModuleId moduleId
    let exactNormalized := liveIds.filter
      (fun id => normalizeModuleId id == moduleNorm)
    if exactNormalized.length == 1 then exactNormalized.head?
    else
      match splitOnChar ':' moduleId with
      | appPart :: modulePart :: _ =>
        if appPart == "" || modulePart == "" then none
        else
          let targetTokens := firstOccurrences (tokenizeModulePart modulePart)
          let candidates := liveIds.filter
            (fun id => startsWithB id (appPart ++ ":"))
          if candidates.isEmpty then none
          else
            match bestLoop targetTokens none candidates with
            | none => none
            | some (id, score) =>
              if scoreLt score (1, 2) then none else some id
      | _ => none

namespace MakeSrv

/-! ## The blueprint tree model

A parsed blueprint `flow` array, with router nodes owning routes that
recursively contain flows.  The encoding uses explicit list spines so that
all recursions below are plain mutual structural recursions. -/

/-- A parameter value inside `parameters` / `mapper`: the scheduler reads
string values, everything else only tests key presence. -/
inductive PVal : Type where
  | str (s : String)
  | other (tag : Nat)
deriving DecidableEq, Repr

/-- A truthy per-node designer value; healing writes `coords 0 0`. -/
inductive DesignerVal : Type where
  | coords (x y : Int)
  | otherTruthy (tag : Nat)
deriving DecidableEq, Repr

/-- A truthy per-node `metadata` object (only its `designer` member is ever
read or written by the server). -/
structure NodeMeta where
  designer : Option DesignerVal
deriving DecidableEq, Repr

mutual

inductive Flow : Type where
  | nil : Flow
  | cons (item : Item) (rest : Flow) : Flow

/-- One entry of a `flow` array.  `nonObject` is a falsy or non-object
entry; a node records `module` (`none` when absent or not a string), the
presence of `id`, `version` (`none` when absent), the two parameter maps,
`metadata` (`none` when absent or falsy) and `routes` (`absent` when
missing or not an array). -/
inductive Item : Type where
  | nonObject : Item
  | node (module : Option String) (hasId : Bool) (version : Option Int)
      (parameters : List (String × PVal)) (mapper : List (String × PVal))
      (metadata : Option NodeMeta) (routes : RoutesOpt) : Item

inductive RoutesOpt : Type where
  | absent : RoutesOpt
  | present (rs : Routes) : RoutesOpt

inductive Routes : Type where
  | nil : Routes
  | cons (r : RouteObj) (rest : Routes) : Routes

/-- A route object: whether a `filter` property is present, and its `flow`
member (`absent` when missing or not an array). -/
inductive RouteObj : Type where
  | mk (filter : Bool) (flow : FlowOpt) : RouteObj

inductive FlowOpt : Type where
  | absent : FlowOpt
  | present (f : Flow) : FlowOpt

end

mutual

def Flow.beq : Flow → Flow → Bool
  | .nil, .nil => true
  | .cons i r, .cons i2 r2 => i.beq i2 && Flow.beq r r2
  | _, _ => false

def Item.beq : Item → Item → Bool
  | .nonObject, .nonObject => true
  | .node m h v p mp md r, .node m2 h2 v2 p2 mp2 md2 r2 =>
    m == m2 && h == h2 && v == v2 && p == p2 && mp == mp2 && md == md2 &&
      RoutesOpt.beq r r2
  | _, _ => false

def RoutesOpt.beq : RoutesOpt → RoutesOpt → Bool
  | .absent, .absent => true
  | .present rs, .present rs2 => Routes.beq rs rs2
  | _, _ => false

def Routes.beq : Routes → Routes → Bool
  | .nil, .nil => true
  | .cons r rest, .cons r2 rest2 => RouteObj.beq r r2 && Routes.beq rest rest2
  | _, _ => false

def RouteObj.beq : RouteObj → RouteObj → Bool
  | .mk f fl, .mk f2 fl2 => f == f2 && FlowOpt.beq fl fl2

def FlowOpt.beq : FlowOpt → FlowOpt → Bool
  | .absent, .absent => true
  | .present f, .present f2 => Flow.beq f f2
  | _, _ => false

end

/-- A blueprint: the `flow` member and the top-level `metadata` member.
`MetaVal.structured` is the shape the server injects; any other truthy
pre-existing metadata is `otherTruthy`. -/
structure ScenarioSettings where
  roundtrips : Nat
  maxErrors : Nat
  autoCommit : Bool
  autoCommitTriggerLast : Bool
  sequential : Bool
  confidential : Bool
  dataloss : Bool
  dlq : Bool
  freshVariables : Bool
deriving DecidableEq, Repr

structure BlueprintMeta where
  version : Nat
  scenario : ScenarioSettings
  designerOrphans : List Nat
deriving DecidableEq, Repr

inductive MetaVal : Type where
  | structured (m : BlueprintMeta)
  | otherTruthy (tag : Nat)
deriving DecidableEq, Repr

/-- The default metadata block injected by `create_scenario`. -/
def defaultMetadata : MetaVal :=
  .structured ⟨1, ⟨1, 3, true, true, false, false, false, false, false⟩, []⟩

structure Blueprint where
  flow : FlowOpt
  metadata : Option MetaVal

/-! ## Recursive tree helpers from server.ts -/

/- `extractAllFlowModules`: every node with a string, non-whitespace
`module`, paired with its `Flow[i].routes[r][j]`-style path, in document
order, at every nesting depth. -/
mutual

def extractFlow (pre : String) (i : Nat) : Flow → List (String × String)
  | .nil => []
  | .cons it rest =>
    let pos := pre ++ "[" ++ toString i ++ "]"
    (match it with
     | .nonObject => []
     | .node m _ _ _ _ _ rts =>
       (match m with
        | some mid => if trimNonempty mid then [(mid, pos)] else []
        | none => []) ++
       (match rts with
        | .absent => []
        | .present rs => extractRoutes pos 0 rs)) ++
    extractFlow pre (i + 1) rest

def extractRoutes (pos : String) (r : Nat) : Routes → List (String × String)
  | .nil => []
  | .cons (.mk _ fl) rest =>
    (match fl with
     | .absent => []
     | .present f => extractFlow (pos ++ ".routes[" ++ toString r ++ "]") 0 f) ++
    extractRoutes pos (r + 1) rest

end

def extractAllFlowModules (f : Flow) : List (String × String) :=
  extractFlow "Flow" 0 f

/- `replaceModuleIdsInFlow`: rewrite every node whose module id is a key of
the replacement map, recursively through router routes. -/
mutual

def replaceFlow (repl : List (String × String)) : Flow → Flow
  | .nil => .nil
  | .cons it rest => .cons (replaceItem repl it) (replaceFlow repl rest)

def replaceItem (repl : List (String × String)) : Item → Item
  | .nonObject => .nonObject
  | .node m h v p mp md rts =>
    let m2 := match m with
      | some mid =>
        match repl.lookup mid with
        | some r => some r
        | none => some mid
      | none => none
    .node m2 h v p mp md (replaceRoutesOpt repl rts)

def replaceRoutesOpt (repl : List (String × String)) : RoutesOpt → RoutesOpt
  | .absent => .absent
  | .present rs => .present (replaceRoutes repl rs)

def replaceRoutes (repl : List (String × String)) : Routes → Routes
  | .nil => .nil
  | .cons (.mk filt fl) rest =>
    .cons (.mk filt (replaceFlowOpt repl fl)) (replaceRoutes repl rest)

def replaceFlowOpt (repl : List (String × String)) : FlowOpt → FlowOpt
  | .absent => .absent
  | .present f => .present (replaceFlow repl f)

end

def replaceModuleIdsInFlow (f : Flow) (repl : List (String × String)) : Flow :=
  replaceFlow repl f

/- `stripModuleVersionsInFlow`: delete every `version` field in the tree,
returning the number removed. -/
mutual

def stripVersionsFlow : Flow → Flow × Nat
  | .nil => (.nil, 0)
  | .cons it rest =>
    let (it2, a) := stripVersionsItem it
    let (rest2, b) := stripVersionsFlow rest
    (.cons it2 rest2, a + b)

def stripVersionsItem : Item → Item × Nat
  | .nonObject => (.nonObject, 0)
  | .node m h v p mp md rts =>
    let removed := if v.isSome then 1 else 0
    let (rts2, c) := stripVersionsRoutesOpt rts
    (.node m h none p mp md rts2, removed + c)

def stripVersionsRoutesOpt : RoutesOpt → RoutesOpt × Nat
  | .absent => (.absent, 0)
  | .present rs =>
    let (rs2, c) := stripVersionsRoutes rs
    (.present rs2, c)

def stripVersionsRoutes : Routes → Routes × Nat
  | .nil => (.nil, 0)
  | .cons (.mk filt fl) rest =>
    let (fl2, a) := stripVersionsFlowOpt fl
    let (rest2, b) := stripVersionsRoutes rest
    (.cons (.mk filt fl2) rest2, a + b)

def stripVersionsFlowOpt : FlowOpt → FlowOpt × Nat
  | .absent => (.absent, 0)
  | .present f =>
    let (f2, c) := stripVersionsFlow f
    (.present f2, c)

end

def stripModuleVersionsInFlow (f : Flow) : Flow × Nat :=
  stripVersionsFlow f

/- `setModuleVersionInFlow`: pin `version` on every node whose module id
equals `moduleId`, returning the number updated. -/
mutual

def setVersionFlow (moduleId : String) (version : Int) : Flow → Flow × Nat
  | .nil => (.nil, 0)
  | .cons it rest =>
    let (it2, a) := setVersionItem moduleId version it
    let (rest2, b) := setVersionFlow moduleId version rest
    (.cons it2 rest2, a + b)

def setVersionItem (moduleId : String) (version : Int) : Item → Item × Nat
  | .nonObject => (.nonObject, 0)
  | .node m h v p mp md rts =>
    let hit := m == some moduleId
    let (rts2, c) := setVersionRoutesOpt moduleId version rts
    (.node m h (if hit then some version else v) p mp md rts2,
     (if hit then 1 else 0) + c)

def setVersionRoutesOpt (moduleId : String) (version : Int) :
    RoutesOpt → RoutesOpt × Nat
  | .absent => (.absent, 0)
  | .present rs =>
    let (rs2, c) := setVersionRoutes moduleId version rs
    (.present rs2, c)

def setVersionRoutes (moduleId : String) (version : Int) : Routes → Routes × Nat
  | .nil => (.nil, 0)
  | .cons (.mk filt fl) rest =>
    let (fl2, a) := setVersionFlowOpt moduleId version fl
    let (rest2, b) := setVersionRoutes moduleId version rest
    (.cons (.mk filt fl2) rest2, a + b)

def setVersionFlowOpt (moduleId : String) (version : Int) : FlowOpt → FlowOpt × Nat
  | .absent => (.absent, 0)
  | .present f =>
    let (f2, c) := setVersionFlow moduleId version f
    (.present f2, c)

end

def setModuleVersionInFlow (f : Flow) (moduleId : String) (version : Int) :
    Flow × Nat :=
  setVersionFlow moduleId version f

/- `injectVerifiedVersions`: nodes of verified modules get the registry
version, other nodes with a string module id lose their version; returns
`(flow, injected, stripped)`.  Nodes without a string `module` keep their
version untouched. -/
mutual

def injectFlow : Flow → Flow × Nat × Nat
  | .nil => (.nil, 0, 0)
  | .cons it rest =>
    let (it2, i1, s1) := injectItem it
    let (rest2, i2, s2) := injectFlow rest
    (.cons it2 rest2, i1 + i2, s1 + s2)

def injectItem : Item → Item × Nat × Nat
  | .nonObject => (.nonObject, 0, 0)
  | .node m h v p mp md rts =>
    let (v2, inj, str) := match m with
      | some mid =>
        match verifiedModuleVersions mid with
        | some kv => (some kv, if v == some kv then 0 else 1, 0)
        | none => (none, 0, if v.isSome then 1 else 0)
      | none => (v, 0, 0)
    let (rts2, i2, s2) := injectRoutesOpt rts
    (.node m h v2 p mp md rts2, inj + i2, str + s2)

def injectRoutesOpt : RoutesOpt → RoutesOpt × Nat × Nat
  | .absent => (.absent, 0, 0)
  | .present rs =>
    let (rs2, i, s) := injectRoutes rs
    (.present rs2, i, s)

def injectRoutes : Routes → Routes × Nat × Nat
  | .nil => (.nil, 0, 0)
  | .cons (.mk filt fl) rest =>
    let (fl2, i1, s1) := injectFlowOpt fl
    let (rest2, i2, s2) := injectRoutes rest
    (.cons (.mk filt fl2) rest2, i1 + i2, s1 + s2)

def injectFlowOpt : FlowOpt → FlowOpt × Nat × Nat
  | .absent => (.absent, 0, 0)
  | .present f =>
    let (f2, i, s) := injectFlow f
    (.present f2, i, s)

end

def injectVerifiedVersions (f : Flow) : Flow × Nat × Nat :=
  injectFlow f

/-! ## Schedule normalization and blueprint healing (create_scenario) -/

/-- The scheduling configuration produced by
`parseSchedulingFromScheduleModule`. -/
structure Sched where
  type : String
  interval : Nat
deriving DecidableEq, Repr

def digitsToNat (ds : List Char) : Nat :=
  ds.foldl (fun acc c => acc * 10 + (c.toNat - 48)) 0

/-- The regex `/(\d+)\s*min/` of `parseMinutes`: the leftmost digit run
followed by optional whitespace and the literal `min`; the captured number
must be positive, otherwise the whole parse yields nothing (the regex does
not keep searching past its first match). -/
def findMinutesAux : List Char → Option Nat
  | [] => none
  | c :: rest =>
    if c.isDigit &&
        "min".data.isPrefixOf
          ((c :: rest).dropWhile Char.isDigit |>.dropWhile Char.isWhitespace) then
      let n := digitsToNat ((c :: rest).takeWhile Char.isDigit)
      if n > 0 then some n else none
    else findMinutesAux rest

def findMinutes (s : String) : Option Nat :=
  findMinutesAux s.data

/-- The `interval` parameter of a schedule node, lower-cased when it is a
string and the empty string otherwise. -/
def intervalTextOfItem : Item → String
  | .nonObject => ""
  | .node _ _ _ ps _ _ _ =>
    match ps.lookup "interval" with
    | some (.str s) => lowerStr s
    | _ => ""

/-- `parseSchedulingFromScheduleModule`: substring heuristics on the
interval text, first match wins, default 900 seconds. -/
def parseSchedulingFromScheduleModule (it : Item) : Sched :=
  if strContains (intervalTextOfItem it) "day" then ⟨"indefinitely", 86400⟩
  else if strContains (intervalTextOfItem it) "week" then ⟨"indefinitely", 604800⟩
  else if strContains (intervalTextOfItem it) "month" then ⟨"indefinitely", 2592000⟩
  else if strContains (intervalTextOfItem it) "hour" then ⟨"indefinitely", 3600⟩
  else
    match findMinutes (intervalTextOfItem it) with
    | some n => ⟨"indefinitely", n * 60⟩
    | none => ⟨"indefinitely", 900⟩

/-- Does this top-level flow entry have `module === "builtin:Schedule"`?
Non-object entries are kept by the filter, so they are not schedule items. -/
def isScheduleItem : Item → Bool
  | .nonObject => false
  | .node m _ _ _ _ _ _ => m == some "builtin:Schedule"

/-- `normalizeSchedulingModules`: a single `Array.prototype.filter` pass over
the top-level flow (it does not descend into router routes).  The first
schedule node determines the scheduling config; all top-level schedule nodes
are dropped and recorded in `removedModules`. -/
def normalizeSchedulingModules : Flow → Flow × Option Sched × List String
  | .nil => (.nil, none, [])
  | .cons it rest =>
    let (rest2, s2, r2) := normalizeSchedulingModules rest
    if isScheduleItem it then
      (rest2, some (parseSchedulingFromScheduleModule it), "builtin:Schedule" :: r2)
    else
      (.cons it rest2, s2, r2)

/- The `healFlow` closure of `create_scenario`: inject a neutral designer
placeholder on every node, strip the unsupported `filter` property from
every route object, recursing through router routes. -/
mutual

def healFlowL : Flow → Flow
  | .nil => .nil
  | .cons it rest => .cons (healItem it) (healFlowL rest)

def healItem : Item → Item
  | .nonObject => .nonObject
  | .node m h v p mp md rts =>
    let md2 := match md with
      | none => some ⟨some (.coords 0 0)⟩
      | some meta =>
        match meta.designer with
        | none => some ⟨some (.coords 0 0)⟩
        | some d => some ⟨some d⟩
    .node m h v p mp md2 (healRoutesOpt rts)

def healRoutesOpt : RoutesOpt → RoutesOpt
  | .absent => .absent
  | .present rs => .present (healRoutes rs)

def healRoutes : Routes → Routes
  | .nil => .nil
  | .cons (.mk _ fl) rest => .cons (.mk false (healFlowOpt fl)) (healRoutes rest)

def healFlowOpt : FlowOpt → FlowOpt
  | .absent => .absent
  | .present f => .present (healFlowL f)

end

/-- The complete blueprint-healing pipeline of `create_scenario`, in source
order: schedule normalization, top-level metadata injection, designer and
route-filter healing, verified-version injection.  Only the resulting tree
is kept here; the scheduling config and log counters do not affect it. -/
def healBlueprint (bp : Blueprint) : Blueprint :=
  let flow1 : FlowOpt := match bp.flow with
    | .absent => .absent
    | .present f => .present (normalizeSchedulingModules f).1
  let meta2 : Option MetaVal := match bp.metadata with
    | none => some defaultMetadata
    | some m => some m
  let flow2 : FlowOpt := match flow1 with
    | .absent => .absent
    | .present f => .present (healFlowL f)
  let flow3 : FlowOpt := match flow2 with
    | .absent => .absent
    | .present f => .present (injectFlow f).1
  ⟨flow3, meta2⟩

/-! ## The recursive validator behind validate_scenario -/

/-- One entry of a catalog schema parameter list (`name` and a truthy
`required` flag are all the validator reads). -/
structure ParamSpec where
  name : String
  required : Bool
deriving DecidableEq, Repr

/-- A module row as the validator uses it: its `type` and its parsed
parameter schema. -/
structure ModuleSchema where
  type : String
  params : List ParamSpec
deriving DecidableEq, Repr

/-- The read-only module database consulted through `db.getModule`. -/
def Catalog : Type := String → Option ModuleSchema

/-- The required-parameter loop of `validateFlow`.  For
`builtin:BasicRouter` the required `routes` parameter is checked as a
sibling `routes` array instead of a data parameter. -/
def routesNonEmptyB : RoutesOpt → Bool
  | .present (.cons _ _) => true
  | _ => false

def collectParamErrors (mid : String) (ps mp : List (String × PVal))
    (rts : RoutesOpt) (pos : String) : List ParamSpec → List String
  | [] => []
  | p :: rest =>
    let here :=
      if p.required then
        if mid == "builtin:BasicRouter" && p.name == "routes" then
          if routesNonEmptyB rts then []
          else [pos ++ " (" ++ mid ++
              "): Router must have a \"routes\" array with at least one route."]
        else if (ps.lookup p.name).isSome || (mp.lookup p.name).isSome then []
        else [pos ++ " (" ++ mid ++ "): Missing required parameter \"" ++
          p.name ++ "\"."]
      else []
    here ++ collectParamErrors mid ps mp rts pos rest

/- The recursive `validateFlow` helper of the `validate_scenario` handler.
Each call returns `(errors, warnings, validatedModules, flowAfter)`;
`flowAfter` is the array as the handler leaves it (the source only reads
from it, which the frame theorem below makes explicit). -/
mutual

def valFlow (gm : Catalog) (pre : String) (i : Nat) :
    Flow → List String × List String × List String × Flow
  | .nil => ([], [], [], .nil)
  | .cons it rest =>
    let (e1, w1, v1, it2) := valItem gm (pre ++ "[" ++ toString i ++ "]") it
    let (e2, w2, v2, rest2) := valFlow gm pre (i + 1) rest
    (e1 ++ e2, w1 ++ w2, v1 ++ v2, .cons it2 rest2)

def valItem (gm : Catalog) (pos : String) :
    Item → List String × List String × List String × Item
  | .nonObject => ([pos ++ ": Each flow item must be an object."], [], [], .nonObject)
  | .node m h v ps mp md rts =>
    match m with
    | none =>
      ([pos ++ ": Missing or invalid \"module\" property."], [], [],
       .node m h v ps mp md rts)
    | some mid =>
      if mid == "" then
        ([pos ++ ": Missing or invalid \"module\" property."], [], [],
         .node m h v ps mp md rts)
      else
        let idWarns := if h then [] else
          [pos ++ " (" ++ mid ++
           "): Missing \"id\" field. Each module should have a unique numeric ID."]
        match gm mid with
        | none =>
          ([pos ++ ": Unknown module \"" ++ mid ++
            "\". Use search_modules to find valid IDs."], idWarns, [],
           .node m h v ps mp md rts)
        | some schema =>
          let versionWarns := match v with
            | none => []
            | some ver =>
              match verifiedModuleVersions mid with
              | some vv =>
                if ver ≠ vv then
                  [pos ++ " (" ++ mid ++ "): Version " ++ toString ver ++
                   " specified but verified working version is " ++ toString vv ++
                   ". create_scenario will auto-correct this."]
                else []
              | none =>
                [pos ++ " (" ++ mid ++
                 "): Module \"version\" is set in blueprint. This can trigger IM007 for unverified modules; create_scenario will strip it."]
          let problemWarns := match getProblematicModuleInfo mid with
            | some pi =>
              [pos ++ " (" ++ mid ++ "): " ++ pi.reason ++ " Alternative: " ++
               pi.alternative]
            | none => []
          let registryWarns :=
            match verifiedModuleVersions mid, getProblematicModuleInfo mid with
            | none, none =>
              [pos ++ " (" ++ mid ++
               "): Not in verified registry — may require manual verification."]
            | _, _ => []
          let paramErrs := collectParamErrors mid ps mp rts pos schema.params
          let (re, rw, rv, rts2) := match rts with
            | .absent => ([], [], [], RoutesOpt.absent)
            | .present rs =>
              let (a, b, c, rs2) := valRoutes gm pos 0 rs
              (a, b, c, RoutesOpt.present rs2)
          (paramErrs ++ re,
           idWarns ++ versionWarns ++ problemWarns ++ registryWarns ++ rw,
           mid :: rv,
           .node m h v ps mp md rts2)

def valRoutes (gm : Catalog) (pos : String) (r : Nat) :
    Routes → List String × List String × List String × Routes
  | .nil => ([], [], [], .nil)
  | .cons (.mk filt fl) rest =>
    let (e1, w1, v1, fl2) := match fl with
      | .absent => ([], [], [], FlowOpt.absent)
      | .present f =>
        let (a, b, c, f2) := valFlow gm (pos ++ ".routes[" ++ toString r ++ "]") 0 f
        (a, b, c, FlowOpt.present f2)
    let (e2, w2, v2, rest2) := valRoutes gm pos (r + 1) rest
    (e1 ++ e2, w1 ++ w2, v1 ++ v2, .cons (.mk filt fl2) rest2)

end

/-- One entry of `accountCompatibility.incompatibleModules`. -/
structure CompatIssue where
  module : String
  suggestion : Option String
  problematic : Bool
  paths : List String
deriving DecidableEq, Repr

def pathsOf (allMods : List (String × String)) (m : String) : List String :=
  (allMods.filter (fun x => x.1 == m)).map Prod.snd

/-- The live-catalog pass of the `validate_scenario` handler: for each
distinct referenced module (insertion order) missing from the live catalog,
record an issue and push a hard error, with a resolver suggestion when one
exists.  `liveIds = none` models a missing API key or a failed live fetch. -/
def liveCompatAux (ids : List String) (allMods : List (String × String)) :
    List String → List String × List CompatIssue
  | [] => ([], [])
  | m :: rest =>
    let (es, is) := liveCompatAux ids allMods rest
    if ids.contains m then (es, is)
    else
      let sug := resolveClosestLiveModule m ids
      let issue : CompatIssue := ⟨m, sug, false, pathsOf allMods m⟩
      let err := match sug with
        | some s =>
          "Module \"" ++ m ++
          "\" is not available in this Make account/region. Suggested replacement: \"" ++
          s ++ "\"."
        | none =>
          "Module \"" ++ m ++ "\" is not available in this Make account/region."
      (err :: es, issue :: is)

def liveCompat (liveIds : Option (List String))
    (allMods : List (String × String)) :
    List String × List CompatIssue × Bool :=
  match liveIds with
  | none => ([], [], false)
  | some ids =>
    let (es, is) := liveCompatAux ids allMods
      (firstOccurrences (allMods.map Prod.fst))
    (es, is, true)

/-- The verified-registry pass: append an issue for each distinct
problematic module not already reported by the live pass (warnings only, no
errors). -/
def registryPass (allMods : List (String × String)) :
    List String → List CompatIssue → List CompatIssue
  | [], acc => acc
  | m :: rest, acc =>
    let acc2 := match getProblematicModuleInfo m with
      | some pi =>
        if acc.any (fun i => i.module == m) then acc
        else acc ++ [⟨m, some pi.alternative, true, pathsOf allMods m⟩]
      | none => acc
    registryPass allMods rest acc2

/-- The validation report of `validate_scenario`
(`accountCompatibility` flattened into the last three fields). -/
structure Report where
  valid : Bool
  errors : List String
  warnings : List String
  modulesValidated : List String
  liveCatalogChecked : Bool
  verifiedRegistryChecked : Bool
  incompatibleModules : List CompatIssue
  summary : String
deriving Repr

def mkSummary (errors warnings validated : List String) : String :=
  if errors.isEmpty then
    "Blueprint is valid. " ++ toString validated.length ++ " module(s) checked, " ++
    toString warnings.length ++ " warning(s)."
  else
    toString errors.length ++ " error(s) found. Fix them before deploying."

/-- The warning pushed after `validateFlow` when the first flow entry is an
object with a truthy `module` whose catalog row is not a trigger. -/
def firstTriggerWarn (gm : Catalog) : Flow → List String
  | .cons (.node (some mid) _ _ _ _ _ _) _ =>
    if mid == "" then []
    else
      match gm mid with
      | some sch =>
        if sch.type ≠ "trigger" then
          ["First module should typically be a trigger. Your scenario has no trigger entry point."]
        else []
      | none => []
  | _ => []

/-- The `validate_scenario` handler on a parsed blueprint.  `liveIds` is the
outcome of `fetchLiveModuleIds` (`none` without an API key or on fetch
failure).  Returns the report and the blueprint as the handler leaves it. -/
def validateScenario (gm : Catalog) (liveIds : Option (List String))
    (bp : Blueprint) : Report × Blueprint :=
  match bp.flow with
  | .absent =>
    let errors := ["Blueprint must contain a \"flow\" array of modules."]
    let warnings := if bp.metadata.isNone then
        ["Blueprint is missing \"metadata\" section. It will be auto-injected during deployment."]
      else []
    (⟨errors.isEmpty, errors, warnings, [], false, false, [],
      mkSummary errors warnings []⟩, bp)
  | .present f =>
    let emptyErrs := match f with
      | .nil => ["Flow array is empty. Add at least one module."]
      | .cons _ _ => []
    let (fe, fw, fv, f2) := valFlow gm "Flow" 0 f
    let trigWarn := firstTriggerWarn gm f
    let metaWarn := if bp.metadata.isNone then
        ["Blueprint is missing \"metadata\" section. It will be auto-injected during deployment."]
      else []
    let allMods := extractAllFlowModules f
    let (liveErrs, liveIssues, liveChecked) := liveCompat liveIds allMods
    let issues := registryPass allMods
      (firstOccurrences (allMods.map Prod.fst)) liveIssues
    let errors := emptyErrs ++ fe ++ liveErrs
    let warnings := fw ++ trigWarn ++ metaWarn
    (⟨errors.isEmpty, errors, warnings, fv, liveChecked, true, issues,
      mkSummary errors warnings fv⟩,
     ⟨.present f2, bp.metadata⟩)

/-! ## The bounded retry loop of create_scenario

A deployment attempt either succeeds or fails with a structured error.  The
fields of `ErrInfo` model `error.response?.status`, `data?.code`, and the
results of the regex extractors `extractIm007ModuleId` /
`extractIm007Version` on the opaque response body (the extracted module id
never contains `@`, and the extracted version is positive when present, but
neither fact is assumed below). -/

structure ErrInfo where
  status : Option Int
  code : Option String
  imModule : Option String
  imVersion : Option Int
deriving DecidableEq, Repr

inductive AttemptOutcome : Type where
  | success
  | httpError (e : ErrInfo)
deriving DecidableEq, Repr

/-- One repair application, mirroring the `logger.warn` call sites inside
the catch block (strategy 2 logs nothing; it aborts). -/
inductive RepairEvent : Type where
  | verifiedVersion (module : String) (version : Int)
  | remap (fromModule toModule : String)
  | versionDecrement (module : String) (toVersion : Int)
  | stripAllVersions (count : Nat)
deriving DecidableEq, Repr

structure FailedModule where
  module : String
  reason : String
  alternative : String
deriving DecidableEq, Repr

/-- The mutable state of the retry loop: `parsed.flow`,
`strippedVersionsForRetry`, `triedVersionFallbacks`, `remappedModules`,
`failedModulesOuter`, plus the repair log. -/
structure RetryState where
  flow : FlowOpt
  strippedVersionsForRetry : Bool
  triedVersionFallbacks : List String
  remappedModules : List (String × String)
  failedModules : List FailedModule
  log : List RepairEvent

def maxAttempts : Nat := 5

/-- Strategy 1: on an IM007 naming a module with a verified version, not yet
tried, pin that version and retry. -/
def tryStrategy1 (attempt : Nat) (st : RetryState) (e : ErrInfo) :
    Option RetryState :=
  if e.status == some 400 && e.code == some "IM007" then
    match e.imModule, st.flow with
    | some m, .present fl =>
      if attempt < maxAttempts then
        match verifiedModuleVersions m with
        | some v =>
          let key := m ++ "@verified"
          if st.triedVersionFallbacks.contains key then none
          else
            let (fl2, updated) := setModuleVersionInFlow fl m v
            if updated > 0 then
              some { st with
                flow := .present fl2,
                triedVersionFallbacks := st.triedVersionFallbacks ++ [key],
                log := st.log ++ [.verifiedVersion m v] }
            else none
        | none => none
      else none
    | _, _ => none
  else none

/-- Strategy 2: on an IM007 naming a denylisted module, record it and
re-throw (abort). -/
def tryStrategy2 (st : RetryState) (e : ErrInfo) : Option RetryState :=
  if e.status == some 400 && e.code == some "IM007" then
    match e.imModule with
    | some m =>
      match getProblematicModuleInfo m with
      | some pi =>
        some { st with failedModules :=
          st.failedModules ++ [⟨m, pi.reason, pi.alternative⟩] }
      | none => none
    | none => none
  else none

/-- Strategy 3: on any 400 naming a module, remap it to the closest live
catalog module and retry (no once-per-module bookkeeping). -/
def tryStrategy3 (liveIds : Option (List String)) (attempt : Nat)
    (st : RetryState) (e : ErrInfo) : Option RetryState :=
  if e.status == some 400 then
    match e.imModule, liveIds with
    | some m, some ids =>
      if attempt < maxAttempts then
        match resolveClosestLiveModule m ids with
        | some r =>
          if r != m then
            match st.flow with
            | .present fl =>
              some { st with
                flow := .present (replaceModuleIdsInFlow fl [(m, r)]),
                remappedModules := st.remappedModules ++ [(m, r)],
                log := st.log ++ [.remap m r] }
            | .absent => none
          else none
        | none => none
      else none
    | _, _ => none
  else none

/-- Strategy 4: on an IM007 naming a module and a version above 1, retry
with the decremented version, once per module-at-version key. -/
def tryStrategy4 (attempt : Nat) (st : RetryState) (e : ErrInfo) :
    Option RetryState :=
  if e.status == some 400 && e.code == some "IM007" then
    match e.imModule, e.imVersion, st.flow with
    | some m, some mv, .present fl =>
      if mv > 1 && attempt < maxAttempts then
        let fallback := mv - 1
        let key := m ++ "@" ++ toString fallback
        if st.triedVersionFallbacks.contains key then none
        else
          let (fl2, updated) := setModuleVersionInFlow fl m fallback
          if updated > 0 then
            some { st with
              flow := .present fl2,
              triedVersionFallbacks := st.triedVersionFallbacks ++ [key],
              log := st.log ++ [.versionDecrement m fallback] }
          else none
      else none
    | _, _, _ => none
  else none

/-- Strategy 5: on an IM007, strip every version pin in the tree and retry,
at most once per deployment. -/
def tryStrategy5 (attempt : Nat) (st : RetryState) (e : ErrInfo) :
    Option RetryState :=
  if e.status == some 400 then
    match st.flow with
    | .present fl =>
      if attempt < maxAttempts && !st.strippedVersionsForRetry then
        if e.code == some "IM007" then
          let (fl2, stripped) := stripModuleVersionsInFlow fl
          if stripped > 0 then
            some { st with
              flow := .present fl2,
              strippedVersionsForRetry := true,
              log := st.log ++ [.stripAllVersions stripped] }
          else none
        else none
      else none
    | .absent => none
  else none

inductive CatchResult : Type where
  | retry (st : RetryState)
  | reraise (st : RetryState)

/-- The catch block: strategies in strict source order; strategy 2 aborts,
an inapplicable tail re-throws with the state unchanged. -/
def handleFailure (liveIds : Option (List String)) (attempt : Nat)
    (st : RetryState) (e : ErrInfo) : CatchResult :=
  match tryStrategy1 attempt st e with
  | some st2 => .retry st2
  | none =>
    match tryStrategy2 st e with
    | some st2 => .reraise st2
    | none =>
      match tryStrategy3 liveIds attempt st e with
      | some st2 => .retry st2
      | none =>
        match tryStrategy4 attempt st e with
        | some st2 => .retry st2
        | none =>
          match tryStrategy5 attempt st e with
          | some st2 => .retry st2
          | none => .reraise st

/-- Loop outcome: `created` on a successful POST, `aborted` when an error is
re-thrown (the outer catch turns it into a failure response), `exhausted`
when the while-condition stops the loop. -/
inductive DeployResult : Type where
  | created (attempts : Nat) (st : RetryState)
  | aborted (e : ErrInfo) (attempts : Nat) (st : RetryState)
  | exhausted (attempts : Nat) (st : RetryState)

def DeployResult.attemptsOf : DeployResult → Nat
  | .created n _ => n
  | .aborted _ n _ => n
  | .exhausted n _ => n

def DeployResult.stateOf : DeployResult → RetryState
  | .created _ st => st
  | .aborted _ _ st => st
  | .exhausted _ st => st

/-- The `while (attempt < maxAttempts)` loop; `fuel = maxAttempts - attempt`
and `responses n` is the outcome of the n-th POST. -/
def retryGo (liveIds : Option (List String))
    (responses : Nat → AttemptOutcome) :
    Nat → RetryState → Nat → DeployResult
  | attempt, st, 0 => .exhausted attempt st
  | attempt, st, fuel + 1 =>
    let a2 := attempt + 1
    match responses a2 with
    | .success => .created a2 st
    | .httpError e =>
      match handleFailure liveIds a2 st e with
      | .retry st2 => retryGo liveIds responses a2 st2 fuel
      | .reraise st2 => .aborted e a2 st2

/-- Initial loop state as set up by `create_scenario` just before the loop. -/
def initRetryState (flow : FlowOpt) : RetryState :=
  ⟨flow, false, [], [], [], []⟩

/-- The whole retry phase of `create_scenario` on a healed blueprint flow. -/
def runCreateScenarioRetry (liveIds : Option (List String))
    (responses : Nat → AttemptOutcome) (flow : FlowOpt) : DeployResult :=
  retryGo liveIds responses 0 (initRetryState flow) maxAttempts

/-! ## Specification-side predicates used to state the claims -/

/-- The required-parameter condition of a node exactly as the claim states
it, with the router structural special case of the validator. -/
def requiredParamsOk (mid : String) (ps mp : List (String × PVal))
    (rts : RoutesOpt) : List ParamSpec → Bool
  | [] => true
  | p :: rest =>
    (if p.required then
       if mid == "builtin:BasicRouter" && p.name == "routes" then
         routesNonEmptyB rts
       else (ps.lookup p.name).isSome || (mp.lookup p.name).isSome
     else true) && requiredParamsOk mid ps mp rts rest

/- A well-formed flow in the sense of claim C1: every entry is an object
with a truthy string module id known to the catalog and all required
schema parameters supplied (routes checked structurally on routers),
recursively in all router routes. -/
mutual

def wfFlow (gm : Catalog) : Flow → Bool
  | .nil => true
  | .cons it rest => wfItem gm it && wfFlow gm rest

def wfItem (gm : Catalog) : Item → Bool
  | .nonObject => false
  | .node m _ _ ps mp _ rts =>
    match m with
    | none => false
    | some mid =>
      mid != "" &&
      (match gm mid with
       | none => false
       | some sch => requiredParamsOk mid ps mp rts sch.params) &&
      wfRoutesOpt gm rts

def wfRoutesOpt (gm : Catalog) : RoutesOpt → Bool
  | .absent => true
  | .present rs => wfRoutes gm rs

def wfRoutes (gm : Catalog) : Routes → Bool
  | .nil => true
  | .cons (.mk _ fl) rest => wfFlowOpt gm fl && wfRoutes gm rest

def wfFlowOpt (gm : Catalog) : FlowOpt → Bool
  | .absent => true
  | .present f => wfFlow gm f

end

/- Does the tree reference the given module id anywhere (any depth)?  Used
to state claims C2 and C8 exactly as written. -/
mutual

def mentionsFlow (m : String) : Flow → Bool
  | .nil => false
  | .cons it rest => mentionsItem m it || mentionsFlow m rest

def mentionsItem (m : String) : Item → Bool
  | .nonObject => false
  | .node mo _ _ _ _ _ rts => mo == some m || mentionsRoutesOpt m rts

def mentionsRoutesOpt (m : String) : RoutesOpt → Bool
  | .absent => false
  | .present rs => mentionsRoutes m rs

def mentionsRoutes (m : String) : Routes → Bool
  | .nil => false
  | .cons (.mk _ fl) rest => mentionsFlowOpt m fl || mentionsRoutes m rest

def mentionsFlowOpt (m : String) : FlowOpt → Bool
  | .absent => false
  | .present f => mentionsFlow m f

end

/- A node referencing unknown module `m` that the recursive validator
actually visits: it sits in the flow itself, or inside a route of a router
node that passed the object / module / catalog checks (the validator skips
the routes of a node that failed one of those checks). -/
mutual

def reachFlowB (gm : Catalog) (m : String) : Flow → Bool
  | .nil => false
  | .cons it rest => reachItemB gm m it || reachFlowB gm m rest

def reachItemB (gm : Catalog) (m : String) : Item → Bool
  | .nonObject => false
  | .node mo _ _ _ _ _ rts =>
    match mo with
    | none => false
    | some mid =>
      (mid == m && m != "" && (gm m).isNone) ||
      (mid != "" && (gm mid).isSome && reachRoutesOptB gm m rts)

def reachRoutesOptB (gm : Catalog) (m : String) : RoutesOpt → Bool
  | .absent => false
  | .present rs => reachRoutesB gm m rs

def reachRoutesB (gm : Catalog) (m : String) : Routes → Bool
  | .nil => false
  | .cons (.mk _ fl) rest => reachFlowOptB gm m fl || reachRoutesB gm m rest

def reachFlowOptB (gm : Catalog) (m : String) : FlowOpt → Bool
  | .absent => false
  | .present f => reachFlowB gm m f

end

/- Claim C7 as a checkable predicate: on every node carrying a string
module id, the version equals the registry value for registered modules and
is absent for unregistered ones, at every depth. -/
mutual

def reconFlow : Flow → Bool
  | .nil => true
  | .cons it rest => reconItem it && reconFlow rest

def reconItem : Item → Bool
  | .nonObject => true
  | .node m _ v _ _ _ rts =>
    (match m with
     | some mid =>
       match verifiedModuleVersions mid with
       | some kv => v == some kv
       | none => v == none
     | none => true) && reconRoutesOpt rts

def reconRoutesOpt : RoutesOpt → Bool
  | .absent => true
  | .present rs => reconRoutes rs

def reconRoutes : Routes → Bool
  | .nil => true
  | .cons (.mk _ fl) rest => reconFlowOpt fl && reconRoutes rest

def reconFlowOpt : FlowOpt → Bool
  | .absent => true
  | .present f => reconFlow f

end

/- The healed shape produced by `healFlowL`: every node has a designer
value and every route object has lost its `filter`, recursively. -/
mutual

def healedFlow : Flow → Bool
  | .nil => true
  | .cons it rest => healedItem it && healedFlow rest

def healedItem : Item → Bool
  | .nonObject => true
  | .node _ _ _ _ _ md rts =>
    (match md with
     | some meta => meta.designer.isSome
     | none => false) && healedRoutesOpt rts

def healedRoutesOpt : RoutesOpt → Bool
  | .absent => true
  | .present rs => healedRoutes rs

def healedRoutes : Routes → Bool
  | .nil => true
  | .cons (.mk filt fl) rest => !filt && healedFlowOpt fl && healedRoutes rest

def healedFlowOpt : FlowOpt → Bool
  | .absent => true
  | .present f => healedFlow f

end

/-- No top-level schedule node (the shape `normalizeSchedulingModules`
guarantees at the top level only). -/
def noSchedTop : Flow → Bool
  | .nil => true
  | .cons it rest => !isScheduleItem it && noSchedTop rest

/-- Keeping the non-schedule top-level entries untouched: the claim-side
description of what the filter pass does to the tree. -/
def keepNonSchedTop : Flow → Flow
  | .nil => .nil
  | .cons it rest =>
    if isScheduleItem it then keepNonSchedTop rest
    else .cons it (keepNonSchedTop rest)

/-- The first top-level schedule node, whose interval determines the
scheduling configuration. -/
def firstTopSchedule : Flow → Option Item
  | .nil => none
  | .cons it rest => if isScheduleItem it then some it else firstTopSchedule rest

/-- The token-overlap score exactly as the specification words it: the
cardinality of the intersection of the two token sets divided by the
cardinality of the target token set. -/
def specTokenOverlapScore (targetPart candidatePart : String) : Rat :=
  let tt := firstOccurrences (tokenizeModulePart targetPart)
  let ct := firstOccurrences (tokenizeModulePart candidatePart)
  ((ct.filter (fun t => tt.contains t)).length : Rat) / (tt.length : Rat)

/-! Repair-event counters for claim C3. -/

def verifiedPred (m : String) : RepairEvent → Bool
  | .verifiedVersion m2 _ => m2 == m
  | _ => false

def decPred (m : String) (v : Int) : RepairEvent → Bool
  | .versionDecrement m2 v2 => m2 == m && v2 == v
  | _ => false

def stripPred : RepairEvent → Bool
  | .stripAllVersions _ => true
  | _ => false

/-- Strategy-1 applications for a module id. -/
def countVerifiedEv (m : String) (l : List RepairEvent) : Nat :=
  l.countP (verifiedPred m)

/-- Strategy-4 applications for a module id at a given version. -/
def countDecEv (m : String) (v : Int) (l : List RepairEvent) : Nat :=
  l.countP (decPred m v)

/-- Strategy-5 applications. -/
def countStripEv (l : List RepairEvent) : Nat :=
  l.countP stripPred

/-- Strategy-4 applications for a module id, any version. -/
def countDecAnyEv (m : String) (l : List RepairEvent) : Nat :=
  l.countP (fun ev => match ev with
    | .versionDecrement m2 _ => m2 == m
    | _ => false)

/-! ## Substring helper lemmas -/

theorem isPrefixOf_append_self (l t : List Char) : l.isPrefixOf (l ++ t) = true := by
  induction l with
  | nil => simp [List.isPrefixOf]
  | cons c cs ih => simp [List.isPrefixOf, ih]

theorem charsInfix_of_prefixOf (pat l : List Char) (h : pat.isPrefixOf l = true) :
    charsInfix pat l = true := by
  cases l with
  | nil =>
    cases pat with
    | nil => rfl
    | cons p ps => simp [List.isPrefixOf] at h
  | cons c rest => simp [charsInfix, h]

theorem charsInfix_cons (pat l : List Char) (c : Char)
    (h : charsInfix pat l = true) : charsInfix pat (c :: l) = true := by
  simp [charsInfix, h]

theorem charsInfix_append_left (pat a l : List Char)
    (h : charsInfix pat l = true) : charsInfix pat (a ++ l) = true := by
  induction a with
  | nil => simpa using h
  | cons c cs ih => simpa using charsInfix_cons pat (cs ++ l) c ih

theorem strContains_middle (pre mid post : String) :
    strContains (pre ++ mid ++ post) mid = true := by
  show charsInfix mid.data (pre ++ mid ++ post).data = true
  have hd : (pre ++ mid ++ post).data = pre.data ++ (mid.data ++ post.data) := by
    simp [String.data_append]
  rw [hd]
  exact charsInfix_append_left _ _ _
    (charsInfix_of_prefixOf _ _ (isPrefixOf_append_self mid.data post.data))

/-! ## The validator emits no errors on a well-formed flow -/

theorem collectParamErrors_nil (mid : String) (ps mp : List (String × PVal))
    (rts : RoutesOpt) (pos : String) (params : List ParamSpec)
    (h : requiredParamsOk mid ps mp rts params = true) :
    collectParamErrors mid ps mp rts pos params = [] := by
  induction params with
  | nil => rfl
  | cons p rest ih =>
    simp only [requiredParamsOk, Bool.and_eq_true] at h
    obtain ⟨h1, h2⟩ := h
    simp only [collectParamErrors, ih h2, List.append_nil]
    split
    case isTrue hreq =>
      rw [if_pos hreq] at h1
      split
      case isTrue hrouter =>
        rw [Bool.and_eq_true] at hrouter
        rw [if_pos hrouter] at h1
        simp [h1]
      case isFalse hrouter =>
        rw [Bool.and_eq_true] at hrouter
        rw [if_neg hrouter] at h1
        simp [h1]
    case isFalse => rfl

mutual

theorem valFlow_errors_nil (gm : Catalog) (pre : String) (i : Nat) :
    ∀ f : Flow, wfFlow gm f = true → (valFlow gm pre i f).1 = []
  | .nil, _ => rfl
  | .cons it rest, h => by
    simp only [wfFlow, Bool.and_eq_true] at h
    show (valItem gm (pre ++ "[" ++ toString i ++ "]") it).1 ++
      (valFlow gm pre (i + 1) rest).1 = []
    rw [valItem_errors_nil gm _ it h.1, valFlow_errors_nil gm pre (i + 1) rest h.2]
    rfl

theorem valItem_errors_nil (gm : Catalog) (pos : String) :
    ∀ it : Item, wfItem gm it = true → (valItem gm pos it).1 = []
  | .nonObject, h => by simp [wfItem] at h
  | .node none hid v ps mp md rts, h => by simp [wfItem] at h
  | .node (some mid) hid v ps mp md .absent, h => by
    simp only [wfItem, Bool.and_eq_true] at h
    obtain ⟨⟨hne, hsch⟩, hrts⟩ := h
    have hmidne : (mid == "") = false := by
      simpa [bne] using hne
    cases hgm : gm mid with
    | none => rw [hgm] at hsch; exact absurd hsch (by simp)
    | some sch =>
      rw [hgm] at hsch
      show (valItem gm pos (.node (some mid) hid v ps mp md .absent)).1 = []
      simp only [valItem, hmidne, Bool.false_eq_true, if_false, hgm]
      simp only [collectParamErrors_nil mid ps mp .absent pos sch.params hsch]
      rfl
  | .node (some mid) hid v ps mp md (.present rs), h => by
    simp only [wfItem, Bool.and_eq_true] at h
    obtain ⟨⟨hne, hsch⟩, hrts⟩ := h
    have hmidne : (mid == "") = false := by
      simpa [bne] using hne
    cases hgm : gm mid with
    | none => rw [hgm] at hsch; exact absurd hsch (by simp)
    | some sch =>
      rw [hgm] at hsch
      have hrs : wfRoutes gm rs = true := hrts
      show (valItem gm pos (.node (some mid) hid v ps mp md (.present rs))).1 = []
      simp only [valItem, hmidne, Bool.false_eq_true, if_false, hgm]
      simp only [collectParamErrors_nil mid ps mp (.present rs) pos sch.params hsch]
      show ([] : List String) ++ (valRoutes gm pos 0 rs).1 = []
      rw [valRoutes_errors_nil gm pos 0 rs hrs]
      rfl

theorem valRoutes_errors_nil (gm : Catalog) (pos : String) (r : Nat) :
    ∀ rs : Routes, wfRoutes gm rs = true → (valRoutes gm pos r rs).1 = []
  | .nil, _ => rfl
  | .cons (.mk filt .absent) rest, h => by
    simp only [wfRoutes, Bool.and_eq_true] at h
    show ([] : List String) ++ (valRoutes gm pos (r + 1) rest).1 = []
    rw [valRoutes_errors_nil gm pos (r + 1) rest h.2]
    rfl
  | .cons (.mk filt (.present f)) rest, h => by
    simp only [wfRoutes, Bool.and_eq_true] at h
    have hf : wfFlow gm f = true := h.1
    show (valFlow gm (pos ++ ".routes[" ++ toString r ++ "]") 0 f).1 ++
      (valRoutes gm pos (r + 1) rest).1 = []
    rw [valFlow_errors_nil gm _ 0 f hf,
      valRoutes_errors_nil gm pos (r + 1) rest h.2]
    rfl

end

/-! ## The validator returns the tree it was given (frame property) -/

mutual

theorem valFlow_frame (gm : Catalog) (pre : String) (i : Nat) :
    ∀ f : Flow, (valFlow gm pre i f).2.2.2 = f
  | .nil => rfl
  | .cons it rest => by
    show Flow.cons (valItem gm (pre ++ "[" ++ toString i ++ "]") it).2.2.2
      (valFlow gm pre (i + 1) rest).2.2.2 = .cons it rest
    rw [valItem_frame gm _ it, valFlow_frame gm pre (i + 1) rest]

theorem valItem_frame (gm : Catalog) (pos : String) :
    ∀ it : Item, (valItem gm pos it).2.2.2 = it
  | .nonObject => rfl
  | .node none hid v ps mp md rts => rfl
  | .node (some mid) hid v ps mp md .absent => by
    cases hmid : mid == "" with
    | true => simp [valItem, hmid]
    | false =>
      simp only [valItem, hmid, Bool.false_eq_true, if_false]
      cases hgm : gm mid with
      | none => rfl
      | some sch => rfl
  | .node (some mid) hid v ps mp md (.present rs) => by
    cases hmid : mid == "" with
    | true => simp [valItem, hmid]
    | false =>
      simp only [valItem, hmid, Bool.false_eq_true, if_false]
      cases hgm : gm mid with
      | none => rfl
      | some sch =>
        show Item.node (some mid) hid v ps mp md
          (.present (valRoutes gm pos 0 rs).2.2.2) =
          .node (some mid) hid v ps mp md (.present rs)
        rw [valRoutes_frame gm pos 0 rs]

theorem valRoutes_frame (gm : Catalog) (pos : String) (r : Nat) :
    ∀ rs : Routes, (valRoutes gm pos r rs).2.2.2 = rs
  | .nil => rfl
  | .cons (.mk filt .absent) rest => by
    show Routes.cons (.mk filt .absent) (valRoutes gm pos (r + 1) rest).2.2.2 =
      .cons (.mk filt .absent) rest
    rw [valRoutes_frame gm pos (r + 1) rest]
  | .cons (.mk filt (.present f)) rest => by
    show Routes.cons
      (.mk filt (.present (valFlow gm (pos ++ ".routes[" ++ toString r ++ "]") 0 f).2.2.2))
      (valRoutes gm pos (r + 1) rest).2.2.2 = .cons (.mk filt (.present f)) rest
    rw [valFlow_frame gm _ 0 f, valRoutes_frame gm pos (r + 1) rest]

end

/-! ## Healing lemmas (claims C6 and C7) -/

theorem isScheduleItem_heal (it : Item) :
    isScheduleItem (healItem it) = isScheduleItem it := by
  cases it <;> rfl

theorem isScheduleItem_inject (it : Item) :
    isScheduleItem (injectItem it).1 = isScheduleItem it := by
  cases it <;> rfl

theorem noSchedTop_heal : ∀ f : Flow, noSchedTop (healFlowL f) = noSchedTop f
  | .nil => rfl
  | .cons it rest => by
    show (!isScheduleItem (healItem it) && noSchedTop (healFlowL rest)) = _
    rw [isScheduleItem_heal, noSchedTop_heal rest]
    rfl

theorem noSchedTop_inject : ∀ f : Flow, noSchedTop (injectFlow f).1 = noSchedTop f
  | .nil => rfl
  | .cons it rest => by
    show (!isScheduleItem (injectItem it).1 && noSchedTop (injectFlow rest).1) = _
    rw [isScheduleItem_inject, noSchedTop_inject rest]
    rfl

theorem noSchedTop_normalize :
    ∀ f : Flow, noSchedTop (normalizeSchedulingModules f).1 = true
  | .nil => rfl
  | .cons it rest => by
    cases hit : isScheduleItem it with
    | true =>
      show noSchedTop (if isScheduleItem it then _ else _ : Flow × Option Sched × List String).1 = true
      rw [hit]
      exact noSchedTop_normalize rest
    | false =>
      show noSchedTop (if isScheduleItem it then _ else _ : Flow × Option Sched × List String).1 = true
      rw [hit]
      show (!isScheduleItem it && noSchedTop (normalizeSchedulingModules rest).1) = true
      rw [hit, noSchedTop_normalize rest]
      rfl

theorem normalize_id_of_noSchedTop :
    ∀ f : Flow, noSchedTop f = true → (normalizeSchedulingModules f).1 = f
  | .nil, _ => rfl
  | .cons it rest, h => by
    simp only [noSchedTop, Bool.and_eq_true] at h
    have hit : isScheduleItem it = false := by
      cases hx : isScheduleItem it with
      | false => rfl
      | true => rw [hx] at h; simp at h
    show (if isScheduleItem it then _ else _ : Flow × Option Sched × List String).1 = _
    rw [hit]
    show Flow.cons it (normalizeSchedulingModules rest).1 = .cons it rest
    rw [normalize_id_of_noSchedTop rest h.2]

mutual

theorem healedFlow_heal : ∀ f : Flow, healedFlow (healFlowL f) = true
  | .nil => rfl
  | .cons it rest => by
    show (healedItem (healItem it) && healedFlow (healFlowL rest)) = true
    rw [healedItem_heal it, healedFlow_heal rest]
    rfl

theorem healedItem_heal : ∀ it : Item, healedItem (healItem it) = true
  | .nonObject => rfl
  | .node m h v p mp none rts => by
    show (true && healedRoutesOpt (healRoutesOpt rts)) = true
    rw [healedRoutesOpt_heal rts]
    rfl
  | .node m h v p mp (some ⟨none⟩) rts => by
    show (true && healedRoutesOpt (healRoutesOpt rts)) = true
    rw [healedRoutesOpt_heal rts]
    rfl
  | .node m h v p mp (some ⟨some d⟩) rts => by
    show (true && healedRoutesOpt (healRoutesOpt rts)) = true
    rw [healedRoutesOpt_heal rts]
    rfl

theorem healedRoutesOpt_heal : ∀ rts : RoutesOpt, healedRoutesOpt (healRoutesOpt rts) = true
  | .absent => rfl
  | .present rs => healedRoutes_heal rs

theorem healedRoutes_heal : ∀ rs : Routes, healedRoutes (healRoutes rs) = true
  | .nil => rfl
  | .cons (.mk filt fl) rest => by
    show (!false && healedFlowOpt (healFlowOpt fl) && healedRoutes (healRoutes rest)) = true
    rw [healedFlowOpt_heal fl, healedRoutes_heal rest]
    rfl

theorem healedFlowOpt_heal : ∀ fl : FlowOpt, healedFlowOpt (healFlowOpt fl) = true
  | .absent => rfl
  | .present f => healedFlow_heal f

end

mutual

theorem heal_id_of_healed : ∀ f : Flow, healedFlow f = true → healFlowL f = f
  | .nil, _ => rfl
  | .cons it rest, h => by
    simp only [healedFlow, Bool.and_eq_true] at h
    show Flow.cons (healItem it) (healFlowL rest) = .cons it rest
    rw [healItem_id_of_healed it h.1, heal_id_of_healed rest h.2]

theorem healItem_id_of_healed : ∀ it : Item, healedItem it = true → healItem it = it
  | .nonObject, _ => rfl
  | .node m h v p mp none rts, hh => by simp [healedItem] at hh
  | .node m h v p mp (some ⟨none⟩) rts, hh => by simp [healedItem] at hh
  | .node m h v p mp (some ⟨some d⟩) rts, hh => by
    simp only [healedItem, Bool.and_eq_true] at hh
    show Item.node m h v p mp (some ⟨some d⟩) (healRoutesOpt rts) = _
    rw [healRoutesOpt_id_of_healed rts hh.2]

theorem healRoutesOpt_id_of_healed :
    ∀ rts : RoutesOpt, healedRoutesOpt rts = true → healRoutesOpt rts = rts
  | .absent, _ => rfl
  | .present rs, h => by
    show RoutesOpt.present (healRoutes rs) = .present rs
    rw [healRoutes_id_of_healed rs h]

theorem healRoutes_id_of_healed :
    ∀ rs : Routes, healedRoutes rs = true → healRoutes rs = rs
  | .nil, _ => rfl
  | .cons (.mk filt fl) rest, h => by
    simp only [healedRoutes, Bool.and_eq_true] at h
    obtain ⟨⟨hfilt, hfl⟩, hrest⟩ := h
    have hfiltf : filt = false := by
      cases filt with
      | false => rfl
      | true => simp at hfilt
    subst hfiltf
    show Routes.cons (.mk false (healFlowOpt fl)) (healRoutes rest) = _
    rw [healFlowOpt_id_of_healed fl hfl, healRoutes_id_of_healed rest hrest]

theorem healFlowOpt_id_of_healed :
    ∀ fl : FlowOpt, healedFlowOpt fl = true → healFlowOpt fl = fl
  | .absent, _ => rfl
  | .present f, h => by
    show FlowOpt.present (healFlowL f) = .present f
    rw [heal_id_of_healed f h]

end

mutual

theorem healedFlow_inject : ∀ f : Flow, healedFlow f = true →
    healedFlow (injectFlow f).1 = true
  | .nil, _ => rfl
  | .cons it rest, h => by
    simp only [healedFlow, Bool.and_eq_true] at h
    show (healedItem (injectItem it).1 && healedFlow (injectFlow rest).1) = true
    rw [healedItem_inject it h.1, healedFlow_inject rest h.2]
    rfl

theorem healedItem_inject : ∀ it : Item, healedItem it = true →
    healedItem (injectItem it).1 = true
  | .nonObject, _ => rfl
  | .node m h v p mp md rts, hh => by
    simp only [healedItem, Bool.and_eq_true] at hh
    show (_ && healedRoutesOpt (injectRoutesOpt rts).1) = true
    rw [healedRoutesOpt_inject rts hh.2]
    simp only [Bool.and_true]
    exact hh.1

theorem healedRoutesOpt_inject : ∀ rts : RoutesOpt, healedRoutesOpt rts = true →
    healedRoutesOpt (injectRoutesOpt rts).1 = true
  | .absent, _ => rfl
  | .present rs, h => healedRoutes_inject rs h

theorem healedRoutes_inject : ∀ rs : Routes, healedRoutes rs = true →
    healedRoutes (injectRoutes rs).1 = true
  | .nil, _ => rfl
  | .cons (.mk filt fl) rest, h => by
    simp only [healedRoutes, Bool.and_eq_true] at h
    obtain ⟨⟨hfilt, hfl⟩, hrest⟩ := h
    show (!filt && healedFlowOpt (injectFlowOpt fl).1 &&
      healedRoutes (injectRoutes rest).1) = true
    rw [healedFlowOpt_inject fl hfl, healedRoutes_inject rest hrest]
    simp [hfilt]

theorem healedFlowOpt_inject : ∀ fl : FlowOpt, healedFlowOpt fl = true →
    healedFlowOpt (injectFlowOpt fl).1 = true
  | .absent, _ => rfl
  | .present f, h => healedFlow_inject f h

end

mutual

theorem reconFlow_inject : ∀ f : Flow, reconFlow (injectFlow f).1 = true
  | .nil => rfl
  | .cons it rest => by
    show (reconItem (injectItem it).1 && reconFlow (injectFlow rest).1) = true
    rw [reconItem_inject it, reconFlow_inject rest]
    rfl

theorem reconItem_inject : ∀ it : Item, reconItem (injectItem it).1 = true
  | .nonObject => rfl
  | .node none h v p mp md rts => by
    show (true && reconRoutesOpt (injectRoutesOpt rts).1) = true
    rw [reconRoutesOpt_inject rts]
    rfl
  | .node (some mid) h v p mp md rts => by
    cases hvv : verifiedModuleVersions mid with
    | some kv =>
      simp only [injectItem, hvv, reconItem]
      rw [reconRoutesOpt_inject rts]
      simp
    | none =>
      simp only [injectItem, hvv, reconItem]
      rw [reconRoutesOpt_inject rts]
      simp

theorem reconRoutesOpt_inject :
    ∀ rts : RoutesOpt, reconRoutesOpt (injectRoutesOpt rts).1 = true
  | .absent => rfl
  | .present rs => reconRoutes_inject rs

theorem reconRoutes_inject : ∀ rs : Routes, reconRoutes (injectRoutes rs).1 = true
  | .nil => rfl
  | .cons (.mk filt fl) rest => by
    show (reconFlowOpt (injectFlowOpt fl).1 && reconRoutes (injectRoutes rest).1) = true
    rw [reconFlowOpt_inject fl, reconRoutes_inject rest]
    rfl

theorem reconFlowOpt_inject :
    ∀ fl : FlowOpt, reconFlowOpt (injectFlowOpt fl).1 = true
  | .absent => rfl
  | .present f => reconFlow_inject f

end

mutual

theorem inject_id_of_recon : ∀ f : Flow, reconFlow f = true → (injectFlow f).1 = f
  | .nil, _ => rfl
  | .cons it rest, h => by
    simp only [reconFlow, Bool.and_eq_true] at h
    show Flow.cons (injectItem it).1 (injectFlow rest).1 = .cons it rest
    rw [injectItem_id_of_recon it h.1, inject_id_of_recon rest h.2]

theorem injectItem_id_of_recon : ∀ it : Item, reconItem it = true → (injectItem it).1 = it
  | .nonObject, _ => rfl
  | .node none h v p mp md rts, hr => by
    simp only [reconItem, Bool.true_and] at hr
    show Item.node none h v p mp md (injectRoutesOpt rts).1 = _
    rw [injectRoutesOpt_id_of_recon rts hr]
  | .node (some mid) h v p mp md rts, hr => by
    simp only [reconItem, Bool.and_eq_true] at hr
    obtain ⟨hv, hrts⟩ := hr
    cases hvv : verifiedModuleVersions mid with
    | some kv =>
      rw [hvv] at hv
      have hveq : v = some kv := by simpa using hv
      simp only [injectItem, hvv]
      rw [injectRoutesOpt_id_of_recon rts hrts, hveq]
    | none =>
      rw [hvv] at hv
      have hveq : v = none := by simpa using hv
      simp only [injectItem, hvv]
      rw [injectRoutesOpt_id_of_recon rts hrts, hveq]

theorem injectRoutesOpt_id_of_recon :
    ∀ rts : RoutesOpt, reconRoutesOpt rts = true → (injectRoutesOpt rts).1 = rts
  | .absent, _ => rfl
  | .present rs, h => by
    show RoutesOpt.present (injectRoutes rs).1 = .present rs
    rw [injectRoutes_id_of_recon rs h]

theorem injectRoutes_id_of_recon :
    ∀ rs : Routes, reconRoutes rs = true → (injectRoutes rs).1 = rs
  | .nil, _ => rfl
  | .cons (.mk filt fl) rest, h => by
    simp only [reconRoutes, Bool.and_eq_true] at h
    show Routes.cons (.mk filt (injectFlowOpt fl).1) (injectRoutes rest).1 = _
    rw [injectFlowOpt_id_of_recon fl h.1, injectRoutes_id_of_recon rest h.2]

theorem injectFlowOpt_id_of_recon :
    ∀ fl : FlowOpt, reconFlowOpt fl = true → (injectFlowOpt fl).1 = fl
  | .absent, _ => rfl
  | .present f, h => by
    show FlowOpt.present (injectFlow f).1 = .present f
    rw [inject_id_of_recon f h]

end

/-! ## Claim theorems -/

/-- C6: the blueprint-healing transformation of `create_scenario` (schedule
normalization, metadata injection, designer placeholders, route-filter
stripping, verified-version injection and stripping) is idempotent: healing
twice yields the same blueprint tree as healing once. -/
theorem healPipeline_id (F : Flow) (h1 : noSchedTop F = true)
    (h2 : healedFlow F = true) (h3 : reconFlow F = true) :
    (injectFlow (healFlowL (normalizeSchedulingModules F).1)).1 = F := by
  rw [normalize_id_of_noSchedTop F h1, heal_id_of_healed F h2,
    inject_id_of_recon F h3]

theorem c6_heal_idempotent (bp : Blueprint) :
    healBlueprint (healBlueprint bp) = healBlueprint bp := by
  obtain ⟨flowOpt, md⟩ := bp
  cases flowOpt with
  | absent => cases md <;> rfl
  | present f =>
    have hsched : noSchedTop
        (injectFlow (healFlowL (normalizeSchedulingModules f).1)).1 = true := by
      rw [noSchedTop_inject, noSchedTop_heal]
      exact noSchedTop_normalize f
    have hhealed : healedFlow
        (injectFlow (healFlowL (normalizeSchedulingModules f).1)).1 = true :=
      healedFlow_inject _ (healedFlow_heal _)
    have hrecon : reconFlow
        (injectFlow (healFlowL (normalizeSchedulingModules f).1)).1 = true :=
      reconFlow_inject _
    cases md with
    | none =>
      show (⟨.present (injectFlow (healFlowL (normalizeSchedulingModules
          (injectFlow (healFlowL (normalizeSchedulingModules f).1)).1).1)).1,
        some defaultMetadata⟩ : Blueprint) =
        ⟨.present (injectFlow (healFlowL (normalizeSchedulingModules f).1)).1,
          some defaultMetadata⟩
      rw [healPipeline_id _ hsched hhealed hrecon]
    | some m0 =>
      show (⟨.present (injectFlow (healFlowL (normalizeSchedulingModules
          (injectFlow (healFlowL (normalizeSchedulingModules f).1)).1).1)).1,
        some m0⟩ : Blueprint) =
        ⟨.present (injectFlow (healFlowL (normalizeSchedulingModules f).1)).1,
          some m0⟩
      rw [healPipeline_id _ hsched hhealed hrecon]

/-- C7: after the verified-version pass of healing, every node in the tree
(router routes included) that carries a string module id has its version
forced to the registry value when the module is registered, and has no
version at all when it is not. -/
theorem c7_versions_reconciled (f : Flow) :
    reconFlow (injectVerifiedVersions f).1 = true :=
  reconFlow_inject f

/-- C10: `validate_scenario` never modifies the blueprint it is given: the
handler threads the parsed tree through unchanged and only produces a
report. -/
theorem c10_validate_frame (gm : Catalog) (liveIds : Option (List String))
    (bp : Blueprint) : (validateScenario gm liveIds bp).2 = bp := by
  obtain ⟨flowOpt, md⟩ := bp
  cases flowOpt with
  | absent => rfl
  | present f =>
    show (⟨.present (valFlow gm "Flow" 0 f).2.2.2, md⟩ : Blueprint) =
      ⟨.present f, md⟩
    rw [valFlow_frame gm "Flow" 0 f]

theorem beq_empty_false_of_ne (s : String) (h : s ≠ "") : (s == "") = false := by
  cases hx : s == "" with
  | false => rfl
  | true => exact absurd (by simpa using hx) h

/-! ## Claim C1 -/

/-- A small static catalog used for concrete checks: a trigger with one
required parameter and the router. -/
def demoCatalog : Catalog := fun s =>
  if s == "demo:Trig" then some ⟨"trigger", [⟨"name", true⟩]⟩
  else if s == "builtin:BasicRouter" then some ⟨"action", [⟨"routes", true⟩]⟩
  else none

def c1Flow : Flow :=
  .cons (.node (some "demo:Trig") true none [("name", .str "x")] [] none .absent) .nil

def c1Blueprint : Blueprint := ⟨.present c1Flow, some defaultMetadata⟩

/-- C1, counterexample: a non-empty well-formed flow whose only module is
catalog-known with all required parameters supplied, yet `validate_scenario`
reports `valid = false` with a non-empty error list, because the live
account catalog was fetched and does not list the module.  The claim as
stated (errors empty for every such blueprint) is therefore false. -/
theorem c1_counterexample :
    wfFlow demoCatalog c1Flow = true ∧
    c1Flow ≠ .nil ∧
    (validateScenario demoCatalog (some ["other:Thing"]) c1Blueprint).1.valid = false ∧
    (validateScenario demoCatalog (some ["other:Thing"]) c1Blueprint).1.errors =
      ["Module \"demo:Trig\" is not available in this Make account/region."] := by
  refine ⟨by decide, fun h => Flow.noConfusion h, ?_, ?_⟩ <;> decide

/-- C1, amended: when the live account catalog is not consulted (no API key
or failed fetch, `liveIds = none`), every blueprint whose root flow is a
non-empty well-formed array of step nodes — catalog-known modules with all
required parameters present in `parameters` or `mapper`, routers carrying
non-empty route arrays — validates with `valid = true` and no errors. -/
theorem c1_valid_wellformed_offline (gm : Catalog) (bp : Blueprint) (f : Flow)
    (hf : bp.flow = .present f) (hne : f ≠ .nil) (hwf : wfFlow gm f = true) :
    (validateScenario gm none bp).1.valid = true ∧
    (validateScenario gm none bp).1.errors = [] := by
  obtain ⟨flowOpt, md⟩ := bp
  simp only at hf
  subst hf
  cases f with
  | nil => exact absurd rfl hne
  | cons it rest =>
    have hfe : (valFlow gm "Flow" 0 (.cons it rest)).1 = [] :=
      valFlow_errors_nil gm "Flow" 0 _ hwf
    constructor
    · show (([] ++ (valFlow gm "Flow" 0 (.cons it rest)).1) ++ []).isEmpty = true
      rw [hfe]
      rfl
    · show ([] ++ (valFlow gm "Flow" 0 (.cons it rest)).1) ++ [] = []
      rw [hfe]
      rfl

/-- Witness for C1 amended, at a concrete well-formed blueprint. -/
theorem c1_valid_wellformed_offline_witness :
    (validateScenario demoCatalog none c1Blueprint).1.valid = true ∧
    (validateScenario demoCatalog none c1Blueprint).1.errors = [] :=
  c1_valid_wellformed_offline demoCatalog c1Blueprint c1Flow rfl
    (fun h => Flow.noConfusion h) (by decide)

/-! ## Claim C2 -/

def c2EmptyCatalog : Catalog := fun _ => none

def c2Flow : Flow :=
  .cons (.node (some "routerZ:Unknown") true none [] [] none
    (.present (.cons (.mk false (.present
      (.cons (.node (some "nested:Missing") true none [] [] none .absent) .nil)))
      .nil))) .nil

def c2Blueprint : Blueprint := ⟨.present c2Flow, some defaultMetadata⟩

/-- C2, counterexample: the blueprint references the unknown module
`nested:Missing` inside a route of a router whose own module is also
unknown; the validator reports only the router and no error mentions the
nested id, because an unknown module aborts the node before the route
recursion. -/
theorem c2_counterexample :
    mentionsFlow "nested:Missing" c2Flow = true ∧
    (validateScenario c2EmptyCatalog none c2Blueprint).1.errors.isEmpty = false ∧
    ((validateScenario c2EmptyCatalog none c2Blueprint).1.errors.all
      (fun e => !(strContains e "nested:Missing"))) = true := by
  refine ⟨by decide, by decide, by decide⟩

mutual

theorem reachFlow_err (gm : Catalog) (m : String) :
    ∀ (f : Flow), reachFlowB gm m f = true → ∀ (pre : String) (i : Nat),
      ∃ e, e ∈ (valFlow gm pre i f).1 ∧ strContains e m = true
  | .cons it rest, h, pre, i => by
    rw [reachFlowB, Bool.or_eq_true] at h
    cases h with
    | inl hit =>
      obtain ⟨e, he, hc⟩ := reachItem_err gm m it hit (pre ++ "[" ++ toString i ++ "]")
      exact ⟨e, List.mem_append_left _ he, hc⟩
    | inr hrest =>
      obtain ⟨e, he, hc⟩ := reachFlow_err gm m rest hrest pre (i + 1)
      exact ⟨e, List.mem_append_right _ he, hc⟩

theorem reachItem_err (gm : Catalog) (m : String) :
    ∀ (it : Item), reachItemB gm m it = true → ∀ (pos : String),
      ∃ e, e ∈ (valItem gm pos it).1 ∧ strContains e m = true
  | .node (some mid) hid v ps mp md .absent, h, pos => by
    rw [reachItemB] at h
    simp only [Bool.or_eq_true, Bool.and_eq_true] at h
    cases h with
    | inl hhere =>
      obtain ⟨⟨hmeq, hmne⟩, hgm0⟩ := hhere
      have hmeq2 : mid = m := by simpa using hmeq
      subst hmeq2
      have hmne2 : (mid == "") = false := by
        simpa [bne] using hmne
      have hgm : gm mid = none := by
        cases hx : gm mid with
        | none => rfl
        | some s => rw [hx] at hgm0; simp at hgm0
      refine ⟨pos ++ ": Unknown module \"" ++ mid ++
        "\". Use search_modules to find valid IDs.", ?_, ?_⟩
      · simp only [valItem, hmne2, Bool.false_eq_true, if_false, hgm]
        exact List.mem_singleton.mpr rfl
      · exact strContains_middle (pos ++ ": Unknown module \"") mid
          "\". Use search_modules to find valid IDs."
    | inr hdesc =>
      obtain ⟨⟨hmidne, hgm1⟩, hreach⟩ := hdesc
      rw [reachRoutesOptB] at hreach
      exact absurd hreach (by simp)
  | .node (some mid) hid v ps mp md (.present rs), h, pos => by
    rw [reachItemB] at h
    simp only [Bool.or_eq_true, Bool.and_eq_true] at h
    cases h with
    | inl hhere =>
      obtain ⟨⟨hmeq, hmne⟩, hgm0⟩ := hhere
      have hmeq2 : mid = m := by simpa using hmeq
      subst hmeq2
      have hmne2 : (mid == "") = false := by
        simpa [bne] using hmne
      have hgm : gm mid = none := by
        cases hx : gm mid with
        | none => rfl
        | some s => rw [hx] at hgm0; simp at hgm0
      refine ⟨pos ++ ": Unknown module \"" ++ mid ++
        "\". Use search_modules to find valid IDs.", ?_, ?_⟩
      · simp only [valItem, hmne2, Bool.false_eq_true, if_false, hgm]
        exact List.mem_singleton.mpr rfl
      · exact strContains_middle (pos ++ ": Unknown module \"") mid
          "\". Use search_modules to find valid IDs."
    | inr hdesc =>
      obtain ⟨⟨hmidne, hgm1⟩, hreach⟩ := hdesc
      have hmidne2 : (mid == "") = false := by
        simpa [bne] using hmidne
      have hrs : reachRoutesB gm m rs = true := hreach
      cases hgmx : gm mid with
      | none => rw [hgmx] at hgm1; simp at hgm1
      | some sch =>
        obtain ⟨e, he, hc⟩ := reachRoutes_err gm m rs hrs pos 0
        refine ⟨e, ?_, hc⟩
        simp only [valItem, hmidne2, Bool.false_eq_true, if_false, hgmx]
        exact List.mem_append_right _ he

theorem reachRoutes_err (gm : Catalog) (m : String) :
    ∀ (rs : Routes), reachRoutesB gm m rs = true → ∀ (pos : String) (r : Nat),
      ∃ e, e ∈ (valRoutes gm pos r rs).1 ∧ strContains e m = true
  | .cons (.mk filt .absent) rest, h, pos, r => by
    rw [reachRoutesB, Bool.or_eq_true] at h
    cases h with
    | inl hfl => rw [reachFlowOptB] at hfl; exact absurd hfl (by simp)
    | inr hrest =>
      obtain ⟨e, he, hc⟩ := reachRoutes_err gm m rest hrest pos (r + 1)
      exact ⟨e, List.mem_append_right _ he, hc⟩
  | .cons (.mk filt (.present f)) rest, h, pos, r => by
    rw [reachRoutesB, Bool.or_eq_true] at h
    cases h with
    | inl hfl =>
      have hf : reachFlowB gm m f = true := hfl
      obtain ⟨e, he, hc⟩ :=
        reachFlow_err gm m f hf (pos ++ ".routes[" ++ toString r ++ "]") 0
      exact ⟨e, List.mem_append_left _ he, hc⟩
    | inr hrest =>
      obtain ⟨e, he, hc⟩ := reachRoutes_err gm m rest hrest pos (r + 1)
      exact ⟨e, List.mem_append_right _ he, hc⟩

end

/-- C2, amended: an unknown module reference produces an error string
containing that module id provided the validator reaches it: it is in the
root flow, or nested in routes whose enclosing router nodes are all objects
with a truthy, catalog-known module id (an unknown or malformed ancestor
aborts before the route recursion). -/
theorem c2_unknown_reported_when_reached (gm : Catalog) (m : String)
    (liveIds : Option (List String)) (bp : Blueprint) (f : Flow)
    (hf : bp.flow = .present f) (hr : reachFlowB gm m f = true) :
    ∃ e, e ∈ (validateScenario gm liveIds bp).1.errors ∧ strContains e m = true := by
  obtain ⟨flowOpt, md⟩ := bp
  simp only at hf
  subst hf
  cases f with
  | nil => rw [reachFlowB] at hr; exact absurd hr (by simp)
  | cons it rest =>
    obtain ⟨e, he, hc⟩ := reachFlow_err gm m (.cons it rest) hr "Flow" 0
    refine ⟨e, ?_, hc⟩
    show e ∈ ([] ++ (valFlow gm "Flow" 0 (.cons it rest)).1) ++
      (liveCompat liveIds (extractAllFlowModules (.cons it rest))).1
    exact List.mem_append_left _ (List.mem_append_right _ he)

def c2wCatalog : Catalog := fun s =>
  if s == "known:Router" then some ⟨"action", []⟩ else none

def c2wInner : Flow :=
  .cons (.node (some "nested:Missing") true none [] [] none .absent) .nil

def c2wFlow : Flow :=
  .cons (.node (some "known:Router") true none [] [] none
    (.present (.cons (.mk false (.present c2wInner)) .nil))) .nil

/-- Witness for C2 amended: the unknown id nested under a known router is
reported. -/
theorem c2_unknown_reported_when_reached_witness :
    ∃ e, e ∈ (validateScenario c2wCatalog none
      ⟨.present c2wFlow, some defaultMetadata⟩).1.errors ∧
      strContains e "nested:Missing" = true :=
  c2_unknown_reported_when_reached c2wCatalog "nested:Missing" none
    ⟨.present c2wFlow, some defaultMetadata⟩ c2wFlow rfl (by decide)

/-! ## Claim C4 -/

/-- C4: if the first deployment attempt fails with an IM007 error naming a
module on the problematic-module denylist, and no higher-priority repair
applies (the module has no verified registry version, so strategy 1 cannot
fire), `create_scenario` aborts immediately: the error is re-thrown after
exactly 1 attempt, recording the denylisted module, with no further
retries. -/
theorem c4_denylist_aborts_first_attempt (liveIds : Option (List String))
    (responses : Nat → AttemptOutcome) (flow : FlowOpt) (e : ErrInfo)
    (m : String) (pi : ProblemInfo)
    (hresp : responses 1 = .httpError e)
    (hstatus : e.status = some 400) (hcode : e.code = some "IM007")
    (hmod : e.imModule = some m)
    (hver : verifiedModuleVersions m = none)
    (hpi : getProblematicModuleInfo m = some pi) :
    runCreateScenarioRetry liveIds responses flow =
      .aborted e 1 ⟨flow, false, [], [], [⟨m, pi.reason, pi.alternative⟩], []⟩ := by
  have hs1 : tryStrategy1 1 (initRetryState flow) e = none := by
    unfold tryStrategy1
    rw [hstatus, hcode, hmod]
    cases flow with
    | absent => rfl
    | present fl =>
      show (if (true : Bool) = true then
        if 1 < maxAttempts then
          match verifiedModuleVersions m with
          | some v => _
          | none => none
        else none else none) = none
      rw [if_pos rfl, if_pos (by decide), hver]
  have hs2 : tryStrategy2 (initRetryState flow) e =
      some ⟨flow, false, [], [], [⟨m, pi.reason, pi.alternative⟩], []⟩ := by
    unfold tryStrategy2
    rw [hstatus, hcode, hmod]
    rw [if_pos (by decide : ((some (400:Int) == some 400 &&
      some "IM007" == some "IM007") = true))]
    dsimp only
    rw [hpi]
    rfl
  show retryGo liveIds responses 0 (initRetryState flow) maxAttempts = _
  show (match responses 1 with
    | .success => DeployResult.created 1 (initRetryState flow)
    | .httpError e2 =>
      match handleFailure liveIds 1 (initRetryState flow) e2 with
      | .retry st2 => retryGo liveIds responses 1 st2 4
      | .reraise st2 => .aborted e2 1 st2) = _
  rw [hresp]
  show (match handleFailure liveIds 1 (initRetryState flow) e with
    | .retry st2 => retryGo liveIds responses 1 st2 4
    | .reraise st2 => DeployResult.aborted e 1 st2) = _
  unfold handleFailure
  rw [hs1, hs2]

def c4wErr : ErrInfo := ⟨some 400, some "IM007", some "email:ActionSendEmail", none⟩

def c4wResponses : Nat → AttemptOutcome := fun _ => .httpError c4wErr

/-- Witness for C4 at a concrete denylisted module: the loop aborts after
exactly one attempt even though every later response would also fail. -/
theorem c4_denylist_aborts_first_attempt_witness :
    runCreateScenarioRetry none c4wResponses .absent =
      .aborted c4wErr 1 ⟨.absent, false, [], [],
        [⟨"email:ActionSendEmail",
          "Generic email module may not be available. Use a specific provider module (Gmail, Microsoft SMTP/IMAP) or http:ActionSendData with an email API.",
          "microsoft-smtp-imap:ActionSendAnEmail"⟩], []⟩ :=
  c4_denylist_aborts_first_attempt none c4wResponses .absent c4wErr
    "email:ActionSendEmail"
    ⟨"microsoft-smtp-imap:ActionSendAnEmail",
     "Generic email module may not be available. Use a specific provider module (Gmail, Microsoft SMTP/IMAP) or http:ActionSendData with an email API."⟩
    rfl rfl rfl rfl rfl rfl

/-! ## Claim C3 -/

def c3Flow : FlowOpt :=
  .present (.cons (.node (some "app:M") true (some 3) [] [] none .absent) .nil)

def c3Responses : Nat → AttemptOutcome := fun n =>
  if n == 1 then .httpError ⟨some 400, some "IM007", some "app:M", some 3⟩
  else if n == 2 then .httpError ⟨some 400, some "IM007", some "app:M", some 2⟩
  else .success

/-- C3, counterexample to the once-per-identifier clause: with two IM007
failures naming the same module `app:M` at versions 3 and 2, the
version-decrement repair (strategy 4) is applied twice for the same
offending module identifier — its bookkeeping key is per module-at-version,
not per module.  The attempt bound itself holds (3 attempts here). -/
theorem c3_counterexample :
    (runCreateScenarioRetry none c3Responses c3Flow).stateOf.log =
      [.versionDecrement "app:M" 2, .versionDecrement "app:M" 1] ∧
    countDecAnyEv "app:M" (runCreateScenarioRetry none c3Responses c3Flow).stateOf.log = 2 ∧
    (runCreateScenarioRetry none c3Responses c3Flow).attemptsOf = 3 := by
  refine ⟨?_, by decide, by decide⟩
  decide

/-! ## Retry-loop bookkeeping invariants (claim C3) -/

/-- Potential of the strategy-1 key for module `m`: its event count plus 1
while the key is still unused.  Every loop step leaves it non-increasing. -/
def potVerified (m : String) (st : RetryState) : Nat :=
  st.log.countP (verifiedPred m) +
    (if st.triedVersionFallbacks.contains (m ++ "@verified") then 0 else 1)

/-- Potential of the strategy-4 key for module `m` at version `v`. -/
def potDec (m : String) (v : Int) (st : RetryState) : Nat :=
  st.log.countP (decPred m v) +
    (if st.triedVersionFallbacks.contains (m ++ "@" ++ toString v) then 0 else 1)

/-- Potential of the global strategy-5 strip flag. -/
def potStrip (st : RetryState) : Nat :=
  st.log.countP stripPred + (if st.strippedVersionsForRetry then 0 else 1)

theorem countP_append_one (l : List RepairEvent) (p : RepairEvent → Bool)
    (e : RepairEvent) :
    (l ++ [e]).countP p = l.countP p + (if p e then 1 else 0) := by
  rw [List.countP_append]
  congr 1
  simp [List.countP_cons]

theorem contains_append_self (l : List String) (k : String) :
    (l ++ [k]).contains k = true := by
  simp [List.elem_iff]

theorem contains_append_of (l l2 : List String) (k : String)
    (h : l.contains k = true) : (l ++ l2).contains k = true := by
  rw [List.elem_iff] at h ⊢
  exact List.mem_append_left _ h

theorem ifContains_append_le (tried ks : List String) (k : String) :
    (if (tried ++ ks).contains k then (0 : Nat) else 1) ≤
      (if tried.contains k then 0 else 1) := by
  cases h : tried.contains k with
  | true => rw [contains_append_of tried ks k h]
  | false =>
    cases h2 : (tried ++ ks).contains k <;> simp

/-- The three potentials bundled; the loop only ever decreases them. -/
def pots (m : String) (v : Int) (st : RetryState) : Nat × Nat × Nat :=
  (potVerified m st, potDec m v st, potStrip st)

def potsLe (m : String) (v : Int) (st2 st : RetryState) : Prop :=
  potVerified m st2 ≤ potVerified m st ∧ potDec m v st2 ≤ potDec m v st ∧
    potStrip st2 ≤ potStrip st

theorem potsLe_refl (m : String) (v : Int) (st : RetryState) :
    potsLe m v st st :=
  ⟨Nat.le_refl _, Nat.le_refl _, Nat.le_refl _⟩

theorem potsLe_trans (m : String) (v : Int) (st3 st2 st : RetryState)
    (h1 : potsLe m v st3 st2) (h2 : potsLe m v st2 st) : potsLe m v st3 st :=
  ⟨Nat.le_trans h1.1 h2.1, Nat.le_trans h1.2.1 h2.2.1, Nat.le_trans h1.2.2 h2.2.2⟩

/-- A step that appends events not counted by `p` and only grows the tried
set leaves `countP p log + key` non-increasing. -/
theorem pot_part_le (log : List RepairEvent) (tried ks : List String)
    (k : String) (ev : RepairEvent) (p : RepairEvent → Bool)
    (hev : p ev = false) :
    (log ++ [ev]).countP p + (if (tried ++ ks).contains k then (0 : Nat) else 1) ≤
      log.countP p + (if tried.contains k then 0 else 1) := by
  rw [countP_append_one, hev]
  simp only [Bool.false_eq_true, if_false]
  have := ifContains_append_le tried ks k
  omega

/-- A matched step: the event is counted once but consumes its previously
unused key. -/
theorem pot_part_match (log : List RepairEvent) (tried : List String)
    (k : String) (ev : RepairEvent) (p : RepairEvent → Bool)
    (hev : p ev = true) (hpre : tried.contains k = false) :
    (log ++ [ev]).countP p + (if (tried ++ [k]).contains k then (0 : Nat) else 1) ≤
      log.countP p + (if tried.contains k then 0 else 1) := by
  rw [countP_append_one, hev, contains_append_self, hpre]
  simp

/-- A step that leaves the tried set untouched. -/
theorem pot_part_le_same (log : List RepairEvent) (tried : List String)
    (k : String) (ev : RepairEvent) (p : RepairEvent → Bool)
    (hev : p ev = false) :
    (log ++ [ev]).countP p + (if tried.contains k then (0 : Nat) else 1) ≤
      log.countP p + (if tried.contains k then 0 else 1) := by
  rw [countP_append_one, hev]
  simp

theorem tryStrategy1_pots (mq : String) (vq : Int) (a : Nat) (st : RetryState)
    (e : ErrInfo) (st2 : RetryState) (h : tryStrategy1 a st e = some st2) :
    potsLe mq vq st2 st := by
  unfold tryStrategy1 at h
  repeat (first
    | exact Option.noConfusion h
    | (simp only [ite_self] at h)
    | (split at h <;> try exact Option.noConfusion h))
  rename_i m fl hmod hflow halt xv kv hkv hcont hupd
  injection h with h2
  subst h2
  rw [Bool.not_eq_true] at hcont
  refine ⟨?_, ?_, ?_⟩
  · cases hm : m == mq with
    | true =>
      have hmeq : m = mq := by simpa using hm
      subst hmeq
      exact pot_part_match st.log st.triedVersionFallbacks (m ++ "@verified")
        (.verifiedVersion m kv) (verifiedPred m) (by simp [verifiedPred]) hcont
    | false =>
      exact pot_part_le st.log st.triedVersionFallbacks [m ++ "@verified"]
        (mq ++ "@verified") (.verifiedVersion m kv) (verifiedPred mq)
        (by simp [verifiedPred, hm])
  · exact pot_part_le st.log st.triedVersionFallbacks [m ++ "@verified"]
      (mq ++ "@" ++ toString vq) (.verifiedVersion m kv) (decPred mq vq)
      (by simp [decPred])
  · show (st.log ++ [RepairEvent.verifiedVersion m kv]).countP stripPred +
      (if st.strippedVersionsForRetry then (0 : Nat) else 1) ≤ _
    rw [countP_append_one]
    simp only [stripPred, Bool.false_eq_true, if_false, Nat.add_zero]
    exact Nat.le_refl _

theorem tryStrategy2_pots (mq : String) (vq : Int) (st : RetryState)
    (e : ErrInfo) (st2 : RetryState) (h : tryStrategy2 st e = some st2) :
    potsLe mq vq st2 st := by
  unfold tryStrategy2 at h
  repeat (first
    | exact Option.noConfusion h
    | (simp only [ite_self] at h)
    | (split at h <;> try exact Option.noConfusion h))
  injection h with h2
  subst h2
  exact ⟨Nat.le_refl _, Nat.le_refl _, Nat.le_refl _⟩

theorem tryStrategy3_pots (mq : String) (vq : Int)
    (liveIds : Option (List String)) (a : Nat) (st : RetryState)
    (e : ErrInfo) (st2 : RetryState) (h : tryStrategy3 liveIds a st e = some st2) :
    potsLe mq vq st2 st := by
  unfold tryStrategy3 at h
  repeat (first
    | exact Option.noConfusion h
    | (simp only [ite_self] at h)
    | (split at h <;> try exact Option.noConfusion h))
  rename_i m ids hmod halt xr r hr hne xf fl hflow
  injection h with h2
  subst h2
  refine ⟨?_, ?_, ?_⟩
  · exact pot_part_le_same st.log st.triedVersionFallbacks (mq ++ "@verified")
      (.remap m r) (verifiedPred mq) (by simp [verifiedPred])
  · exact pot_part_le_same st.log st.triedVersionFallbacks
      (mq ++ "@" ++ toString vq) (.remap m r) (decPred mq vq)
      (by simp [decPred])
  · show (st.log ++ [RepairEvent.remap m r]).countP stripPred +
      (if st.strippedVersionsForRetry then (0 : Nat) else 1) ≤ _
    rw [countP_append_one]
    simp only [stripPred, Bool.false_eq_true, if_false, Nat.add_zero]
    exact Nat.le_refl _

theorem tryStrategy4_pots (mq : String) (vq : Int) (a : Nat) (st : RetryState)
    (e : ErrInfo) (st2 : RetryState) (h : tryStrategy4 a st e = some st2) :
    potsLe mq vq st2 st := by
  unfold tryStrategy4 at h
  repeat (first
    | exact Option.noConfusion h
    | (simp only [ite_self] at h)
    | (split at h <;> try exact Option.noConfusion h))
  rename_i m mv fl hmod hver hflow hguard hcont hupd
  injection h with h2
  subst h2
  rw [Bool.not_eq_true] at hcont
  refine ⟨?_, ?_, ?_⟩
  · exact pot_part_le st.log st.triedVersionFallbacks
      [m ++ "@" ++ toString (mv - 1)] (mq ++ "@verified")
      (.versionDecrement m (mv - 1)) (verifiedPred mq) (by simp [verifiedPred])
  · cases hm : m == mq && (mv - 1) == vq with
    | true =>
      rw [Bool.and_eq_true] at hm
      have hmeq : m = mq := by simpa using hm.1
      have hveq : mv - 1 = vq := by simpa using hm.2
      subst hmeq
      rw [← hveq]
      exact pot_part_match st.log st.triedVersionFallbacks
        (m ++ "@" ++ toString (mv - 1)) (.versionDecrement m (mv - 1))
        (decPred m (mv - 1)) (by simp [decPred]) hcont
    | false =>
      exact pot_part_le st.log st.triedVersionFallbacks
        [m ++ "@" ++ toString (mv - 1)] (mq ++ "@" ++ toString vq)
        (.versionDecrement m (mv - 1)) (decPred mq vq)
        (by simp only [decPred]; exact hm)
  · show (st.log ++ [RepairEvent.versionDecrement m (mv - 1)]).countP stripPred +
      (if st.strippedVersionsForRetry then (0 : Nat) else 1) ≤ _
    rw [countP_append_one]
    simp only [stripPred, Bool.false_eq_true, if_false, Nat.add_zero]
    exact Nat.le_refl _

theorem tryStrategy5_pots (mq : String) (vq : Int) (a : Nat) (st : RetryState)
    (e : ErrInfo) (st2 : RetryState) (h : tryStrategy5 a st e = some st2) :
    potsLe mq vq st2 st := by
  unfold tryStrategy5 at h
  repeat (first
    | exact Option.noConfusion h
    | (simp only [ite_self] at h)
    | (split at h <;> try exact Option.noConfusion h))
  rename_i fl hflow hguard hcode hstr
  injection h with h2
  subst h2
  rw [Bool.and_eq_true] at hguard
  have hflag : st.strippedVersionsForRetry = false := by
    simpa using hguard.2
  refine ⟨?_, ?_, ?_⟩
  · exact pot_part_le_same st.log st.triedVersionFallbacks (mq ++ "@verified")
      (.stripAllVersions (stripModuleVersionsInFlow fl).2) (verifiedPred mq)
      (by simp [verifiedPred])
  · exact pot_part_le_same st.log st.triedVersionFallbacks
      (mq ++ "@" ++ toString vq)
      (.stripAllVersions (stripModuleVersionsInFlow fl).2) (decPred mq vq)
      (by simp [decPred])
  · show (st.log ++ [RepairEvent.stripAllVersions
        (stripModuleVersionsInFlow fl).2]).countP stripPred +
      (if (true : Bool) = true then (0 : Nat) else 1) ≤
      List.countP stripPred st.log +
        (if st.strippedVersionsForRetry = true then 0 else 1)
    rw [countP_append_one, hflag]
    simp [stripPred]

def CatchResult.stateOf : CatchResult → RetryState
  | .retry st => st
  | .reraise st => st

theorem handleFailure_pots (mq : String) (vq : Int)
    (liveIds : Option (List String)) (a : Nat) (st : RetryState) (e : ErrInfo) :
    potsLe mq vq ((handleFailure liveIds a st e).stateOf) st := by
  unfold handleFailure
  cases h1 : tryStrategy1 a st e with
  | some st2 => exact tryStrategy1_pots mq vq a st e st2 h1
  | none =>
    cases h2 : tryStrategy2 st e with
    | some st2 => exact tryStrategy2_pots mq vq st e st2 h2
    | none =>
      cases h3 : tryStrategy3 liveIds a st e with
      | some st2 => exact tryStrategy3_pots mq vq liveIds a st e st2 h3
      | none =>
        cases h4 : tryStrategy4 a st e with
        | some st2 => exact tryStrategy4_pots mq vq a st e st2 h4
        | none =>
          cases h5 : tryStrategy5 a st e with
          | some st2 => exact tryStrategy5_pots mq vq a st e st2 h5
          | none => exact potsLe_refl mq vq st

theorem retryGo_pots (mq : String) (vq : Int) (liveIds : Option (List String))
    (responses : Nat → AttemptOutcome) :
    ∀ (fuel a : Nat) (st : RetryState),
      potsLe mq vq (retryGo liveIds responses a st fuel).stateOf st
  | 0, a, st => potsLe_refl mq vq st
  | fuel + 1, a, st => by
    show potsLe mq vq (match responses (a + 1) with
      | .success => DeployResult.created (a + 1) st
      | .httpError e =>
        match handleFailure liveIds (a + 1) st e with
        | .retry st2 => retryGo liveIds responses (a + 1) st2 fuel
        | .reraise st2 => .aborted e (a + 1) st2).stateOf st
    cases responses (a + 1) with
    | success => exact potsLe_refl mq vq st
    | httpError e =>
      have hhf := handleFailure_pots mq vq liveIds (a + 1) st e
      show potsLe mq vq (match handleFailure liveIds (a + 1) st e with
        | .retry st2 => retryGo liveIds responses (a + 1) st2 fuel
        | .reraise st2 => DeployResult.aborted e (a + 1) st2).stateOf st
      cases hh : handleFailure liveIds (a + 1) st e with
      | retry st2 =>
        rw [hh] at hhf
        show potsLe mq vq (retryGo liveIds responses (a + 1) st2 fuel).stateOf st
        exact potsLe_trans mq vq _ st2 st
          (retryGo_pots mq vq liveIds responses fuel (a + 1) st2) hhf
      | reraise st2 =>
        rw [hh] at hhf
        show potsLe mq vq st2 st
        exact hhf

theorem retryGo_attempts (liveIds : Option (List String))
    (responses : Nat → AttemptOutcome) :
    ∀ (fuel a : Nat) (st : RetryState),
      (retryGo liveIds responses a st fuel).attemptsOf ≤ a + fuel
  | 0, a, st => Nat.le_refl a
  | fuel + 1, a, st => by
    show (match responses (a + 1) with
      | .success => DeployResult.created (a + 1) st
      | .httpError e =>
        match handleFailure liveIds (a + 1) st e with
        | .retry st2 => retryGo liveIds responses (a + 1) st2 fuel
        | .reraise st2 => .aborted e (a + 1) st2).attemptsOf ≤ a + (fuel + 1)
    cases responses (a + 1) with
    | success => show a + 1 ≤ a + (fuel + 1); omega
    | httpError e =>
      show (match handleFailure liveIds (a + 1) st e with
        | .retry st2 => retryGo liveIds responses (a + 1) st2 fuel
        | .reraise st2 => DeployResult.aborted e (a + 1) st2).attemptsOf ≤
        a + (fuel + 1)
      cases handleFailure liveIds (a + 1) st e with
      | retry st2 =>
        have := retryGo_attempts liveIds responses fuel (a + 1) st2
        show (retryGo liveIds responses (a + 1) st2 fuel).attemptsOf ≤ a + (fuel + 1)
        omega
      | reraise st2 => show a + 1 ≤ a + (fuel + 1); omega
/-- C3, amended: the `create_scenario` retry loop performs at most
`maxAttempts` (= 5) submission attempts for every input and every sequence
of deployment responses, and then terminates in a success, abort, or
exhaustion result.  The once-per-key bookkeeping holds for strategy 1 (at
most once per offending module), strategy 4 (at most once per offending
module at a given reported version), and strategy 5 (at most once overall);
the live-catalog remap strategy 3 carries no such bookkeeping (see the
counterexample), so termination rests on the attempt bound alone. -/
theorem c3_retry_bounded_once_per_key (liveIds : Option (List String))
    (responses : Nat → AttemptOutcome) (flow : FlowOpt) :
    (runCreateScenarioRetry liveIds responses flow).attemptsOf ≤ maxAttempts ∧
    (∀ m, countVerifiedEv m
      (runCreateScenarioRetry liveIds responses flow).stateOf.log ≤ 1) ∧
    (∀ m v, countDecEv m v
      (runCreateScenarioRetry liveIds responses flow).stateOf.log ≤ 1) ∧
    countStripEv (runCreateScenarioRetry liveIds responses flow).stateOf.log ≤ 1 := by
  have hrun : runCreateScenarioRetry liveIds responses flow =
      retryGo liveIds responses 0 (initRetryState flow) maxAttempts := rfl
  refine ⟨?_, ?_, ?_, ?_⟩
  · rw [hrun]
    have := retryGo_attempts liveIds responses maxAttempts 0 (initRetryState flow)
    simpa using this
  · intro m
    rw [hrun]
    have h := (retryGo_pots m 0 liveIds responses maxAttempts 0
      (initRetryState flow)).1
    have h2 : potVerified m (initRetryState flow) = 1 := by
      simp [potVerified, initRetryState]
    have h3 : countVerifiedEv m
        (retryGo liveIds responses 0 (initRetryState flow) maxAttempts).stateOf.log ≤
        potVerified m
          (retryGo liveIds responses 0 (initRetryState flow) maxAttempts).stateOf :=
      Nat.le_add_right _ _
    omega
  · intro m v
    rw [hrun]
    have h := (retryGo_pots m v liveIds responses maxAttempts 0
      (initRetryState flow)).2.1
    have h2 : potDec m v (initRetryState flow) = 1 := by
      simp [potDec, initRetryState]
    have h3 : countDecEv m v
        (retryGo liveIds responses 0 (initRetryState flow) maxAttempts).stateOf.log ≤
        potDec m v
          (retryGo liveIds responses 0 (initRetryState flow) maxAttempts).stateOf :=
      Nat.le_add_right _ _
    omega
  · rw [hrun]
    have h := (retryGo_pots "" 0 liveIds responses maxAttempts 0
      (initRetryState flow)).2.2
    have h2 : potStrip (initRetryState flow) = 1 := by
      simp [potStrip, initRetryState]
    have h3 : countStripEv
        (retryGo liveIds responses 0 (initRetryState flow) maxAttempts).stateOf.log ≤
        potStrip
          (retryGo liveIds responses 0 (initRetryState flow) maxAttempts).stateOf :=
      Nat.le_add_right _ _
    omega

/-! ## Claim C8 -/

def c8Flow : Flow :=
  .cons (.node (some "builtin:BasicRouter") true none [] [] none
    (.present (.cons (.mk false (.present
      (.cons (.node (some "builtin:Schedule") true none
        [("interval", .str "every day")] [] none .absent) .nil)))
      .nil))) .nil

/-- C8, counterexample: a scheduling pseudo-node nested inside a router
route is neither removed from the flow nor translated into a scheduling
configuration — `normalizeSchedulingModules` filters the top level only. -/
theorem c8_counterexample :
    mentionsFlow "builtin:Schedule" c8Flow = true ∧
    (normalizeSchedulingModules c8Flow).1 = c8Flow ∧
    (normalizeSchedulingModules c8Flow).2.1 = none := by
  exact ⟨by decide, rfl, rfl⟩

theorem normalize_keepNonSchedTop :
    ∀ f : Flow, (normalizeSchedulingModules f).1 = keepNonSchedTop f
  | .nil => rfl
  | .cons it rest => by
    cases hit : isScheduleItem it with
    | true =>
      show (if isScheduleItem it then _ else _ : Flow × Option Sched × List String).1 =
        keepNonSchedTop (.cons it rest)
      rw [hit]
      show (normalizeSchedulingModules rest).1 = keepNonSchedTop (.cons it rest)
      rw [normalize_keepNonSchedTop rest]
      show keepNonSchedTop rest = if isScheduleItem it then _ else _
      rw [hit, if_pos rfl]
    | false =>
      show (if isScheduleItem it then _ else _ : Flow × Option Sched × List String).1 =
        keepNonSchedTop (.cons it rest)
      rw [hit]
      show Flow.cons it (normalizeSchedulingModules rest).1 =
        keepNonSchedTop (.cons it rest)
      rw [normalize_keepNonSchedTop rest]
      show Flow.cons it (keepNonSchedTop rest) = if isScheduleItem it then _ else _
      rw [hit, if_neg (by decide)]

theorem normalize_firstSchedule :
    ∀ f : Flow, (normalizeSchedulingModules f).2.1 =
      (firstTopSchedule f).map parseSchedulingFromScheduleModule
  | .nil => rfl
  | .cons it rest => by
    cases hit : isScheduleItem it with
    | true =>
      show (if isScheduleItem it then _ else _ : Flow × Option Sched × List String).2.1 =
        ((if isScheduleItem it then some it else firstTopSchedule rest).map
          parseSchedulingFromScheduleModule)
      rw [hit]
      rfl
    | false =>
      show (if isScheduleItem it then _ else _ : Flow × Option Sched × List String).2.1 =
        ((if isScheduleItem it then some it else firstTopSchedule rest).map
          parseSchedulingFromScheduleModule)
      rw [hit]
      show (normalizeSchedulingModules rest).2.1 = _
      rw [normalize_firstSchedule rest, if_neg (by decide)]

/-- C8, amended: schedule normalization is a top-level filter: every
top-level `builtin:Schedule` node is removed (non-schedule entries are kept
untouched, so schedule nodes nested inside router routes remain in place),
the first top-level schedule node is translated into the scheduling
configuration, and its interval text maps to seconds as day→86400,
week→604800, month→2592000, hour→3600, "N minutes"→N×60 (first regex
match, positive), default 900. -/
theorem c8_schedule_normalization_top_level (f : Flow) (it : Item) :
    (normalizeSchedulingModules f).1 = keepNonSchedTop f ∧
    (normalizeSchedulingModules f).2.1 =
      (firstTopSchedule f).map parseSchedulingFromScheduleModule ∧
    (parseSchedulingFromScheduleModule it).type = "indefinitely" ∧
    (strContains (intervalTextOfItem it) "day" = true →
      (parseSchedulingFromScheduleModule it).interval = 86400) ∧
    (strContains (intervalTextOfItem it) "day" = false →
      strContains (intervalTextOfItem it) "week" = true →
      (parseSchedulingFromScheduleModule it).interval = 604800) ∧
    (strContains (intervalTextOfItem it) "day" = false →
      strContains (intervalTextOfItem it) "week" = false →
      strContains (intervalTextOfItem it) "month" = true →
      (parseSchedulingFromScheduleModule it).interval = 2592000) ∧
    (strContains (intervalTextOfItem it) "day" = false →
      strContains (intervalTextOfItem it) "week" = false →
      strContains (intervalTextOfItem it) "month" = false →
      strContains (intervalTextOfItem it) "hour" = true →
      (parseSchedulingFromScheduleModule it).interval = 3600) ∧
    (strContains (intervalTextOfItem it) "day" = false →
      strContains (intervalTextOfItem it) "week" = false →
      strContains (intervalTextOfItem it) "month" = false →
      strContains (intervalTextOfItem it) "hour" = false →
      ∀ n, findMinutes (intervalTextOfItem it) = some n →
        (parseSchedulingFromScheduleModule it).interval = n * 60) ∧
    (strContains (intervalTextOfItem it) "day" = false →
      strContains (intervalTextOfItem it) "week" = false →
      strContains (intervalTextOfItem it) "month" = false →
      strContains (intervalTextOfItem it) "hour" = false →
      findMinutes (intervalTextOfItem it) = none →
      (parseSchedulingFromScheduleModule it).interval = 900) := by
  refine ⟨normalize_keepNonSchedTop f, normalize_firstSchedule f, ?_, ?_, ?_, ?_, ?_, ?_, ?_⟩
  · unfold parseSchedulingFromScheduleModule
    split
    · rfl
    · split
      · rfl
      · split
        · rfl
        · split
          · rfl
          · cases findMinutes (intervalTextOfItem it) <;> rfl
  · intro hd
    simp only [parseSchedulingFromScheduleModule]
    rw [hd]
    rfl
  · intro hd hw
    simp only [parseSchedulingFromScheduleModule]
    rw [hd, hw]
    rfl
  · intro hd hw hm
    simp only [parseSchedulingFromScheduleModule]
    rw [hd, hw, hm]
    rfl
  · intro hd hw hm hh
    simp only [parseSchedulingFromScheduleModule]
    rw [hd, hw, hm, hh]
    rfl
  · intro hd hw hm hh n hn
    simp only [parseSchedulingFromScheduleModule]
    rw [hd, hw, hm, hh, hn]
    rfl
  · intro hd hw hm hh hn
    simp only [parseSchedulingFromScheduleModule]
    rw [hd, hw, hm, hh, hn]
    rfl

/-! ## Resolver lemmas (claims C5 and C9) -/

theorem scorePair_denom_pos (tt : List String) (c : String) :
    0 < (scorePair tt c).2 := by
  show 0 < max tt.length 1
  omega

theorem scoreLt_iff (tt : List String) (b c : String) :
    scoreLt (scorePair tt b) (scorePair tt c) = true ↔
      candidateScore tt b < candidateScore tt c := by
  unfold scoreLt candidateScore
  rw [Nat.blt_eq]
  rw [div_lt_div_iff₀
    (by exact_mod_cast scorePair_denom_pos tt b)
    (by exact_mod_cast scorePair_denom_pos tt c)]
  exact_mod_cast Iff.rfl

theorem scoreThreshold_iff (tt : List String) (c : String) :
    scoreLt (scorePair tt c) (1, 2) = true ↔
      candidateScore tt c < (1 : Rat) / 2 := by
  unfold scoreLt candidateScore
  rw [Nat.blt_eq]
  rw [div_lt_div_iff₀
    (by exact_mod_cast scorePair_denom_pos tt c)
    (by norm_num)]
  constructor
  · intro h
    exact_mod_cast h
  · intro h
    exact_mod_cast h

theorem bestLoop_spec (tt : List String) :
    ∀ (cs : List String) (b : String),
      ∃ c s, bestLoop tt (some (b, scorePair tt b)) cs = some (c, s) ∧
        s = scorePair tt c ∧ (c = b ∨ c ∈ cs) ∧
        candidateScore tt b ≤ candidateScore tt c ∧
        ∀ x ∈ cs, candidateScore tt x ≤ candidateScore tt c
  | [], b => ⟨b, scorePair tt b, rfl, rfl, Or.inl rfl, le_refl _, by simp⟩
  | c0 :: rest, b => by
    cases hlt : scoreLt (scorePair tt b) (scorePair tt c0) with
    | true =>
      obtain ⟨c, s, heq, hs, hmem, hbase, hmax⟩ := bestLoop_spec tt rest c0
      refine ⟨c, s, ?_, hs, ?_, ?_, ?_⟩
      · show bestLoop tt (if scoreLt (scorePair tt b) (scorePair tt c0)
          then some (c0, scorePair tt c0)
          else some (b, scorePair tt b)) rest = some (c, s)
        rw [hlt, if_pos rfl]
        exact heq
      · cases hmem with
        | inl h => exact Or.inr (h ▸ List.mem_cons_self c0 rest)
        | inr h => exact Or.inr (List.mem_cons_of_mem c0 h)
      · exact le_trans (le_of_lt ((scoreLt_iff tt b c0).mp hlt)) hbase
      · intro x hx
        cases List.mem_cons.mp hx with
        | inl h => exact h ▸ hbase
        | inr h => exact hmax x h
    | false =>
      obtain ⟨c, s, heq, hs, hmem, hbase, hmax⟩ := bestLoop_spec tt rest b
      refine ⟨c, s, ?_, hs, ?_, hbase, ?_⟩
      · show bestLoop tt (if scoreLt (scorePair tt b) (scorePair tt c0)
          then some (c0, scorePair tt c0)
          else some (b, scorePair tt b)) rest = some (c, s)
        rw [hlt, if_neg (by decide)]
        exact heq
      · cases hmem with
        | inl h => exact Or.inl h
        | inr h => exact Or.inr (List.mem_cons_of_mem c0 h)
      · intro x hx
        cases List.mem_cons.mp hx with
        | inl h =>
          have hc0 : ¬ (candidateScore tt b < candidateScore tt c0) := by
            intro hcon
            rw [← scoreLt_iff tt b c0] at hcon
            rw [hlt] at hcon
            exact Bool.false_ne_true hcon
          exact h ▸ le_trans (le_of_not_lt hc0) hbase
        | inr h => exact hmax x h

theorem bestLoop_mem (tt : List String) :
    ∀ (cs : List String) (b : String) (bs : Nat × Nat) (c : String)
      (s : Nat × Nat),
      bestLoop tt (some (b, bs)) cs = some (c, s) → c = b ∨ c ∈ cs
  | [], b, bs, c, s, h => by
    injection h with h2
    exact Or.inl (congrArg Prod.fst h2).symm
  | c0 :: rest, b, bs, c, s, h => by
    show (c = b ∨ c ∈ c0 :: rest)
    have h2 : bestLoop tt (if scoreLt bs (scorePair tt c0)
        then some (c0, scorePair tt c0)
        else some (b, bs)) rest = some (c, s) := h
    cases hlt : scoreLt bs (scorePair tt c0) with
    | true =>
      rw [hlt, if_pos rfl] at h2
      cases bestLoop_mem tt rest c0 (scorePair tt c0) c s h2 with
      | inl hh => exact Or.inr (hh ▸ List.mem_cons_self c0 rest)
      | inr hh => exact Or.inr (List.mem_cons_of_mem c0 hh)
    | false =>
      rw [hlt, if_neg (by decide)] at h2
      cases bestLoop_mem tt rest b bs c s h2 with
      | inl hh => exact Or.inl hh
      | inr hh => exact Or.inr (List.mem_cons_of_mem c0 hh)

theorem resolve_mem (m : String) (ids : List String) (r : String)
    (h : resolveClosestLiveModule m ids = some r) : r ∈ ids := by
  unfold resolveClosestLiveModule at h
  split at h
  case isTrue hc =>
    injection h with h2
    subst h2
    exact (List.elem_iff).mp hc
  case isFalse =>
    simp only [] at h
    split at h
    case isTrue hlen =>
      have := List.mem_of_mem_filter (List.mem_of_mem_head? h)
      exact this
    case isFalse =>
      split at h <;> try exact Option.noConfusion h
      rename_i appPart modulePart tailParts hsplit
      split at h
      case isTrue => exact Option.noConfusion h
      case isFalse =>
        split at h
        case isTrue => exact Option.noConfusion h
        case isFalse hne =>
          split at h <;> try exact Option.noConfusion h
          rename_i pr id score heq
          split at h
          case isTrue => exact Option.noConfusion h
          case isFalse =>
            injection h with h2
            subst h2
            cases hcand : ids.filter (fun id => startsWithB id (appPart ++ ":")) with
            | nil => rw [hcand] at hne; simp at hne
            | cons c0 cs =>
              rw [hcand] at heq
              have hmem := bestLoop_mem (firstOccurrences (tokenizeModulePart modulePart))
                cs c0 (scorePair (firstOccurrences (tokenizeModulePart modulePart)) c0)
                id score heq
              have hin : id ∈ c0 :: cs := by
                cases hmem with
                | inl hh => exact hh ▸ List.mem_cons_self c0 cs
                | inr hh => exact List.mem_cons_of_mem c0 hh
              rw [← hcand] at hin
              exact List.mem_of_mem_filter hin

/-! ## Claim C9 -/

/-- C9: for every module id and non-empty live catalog, the resolver
returns either no suggestion or a member of the live catalog — it never
fabricates an id outside the known-good set. -/
theorem c9_suggestion_in_live_catalog (m : String) (ids : List String)
    ( _hne : ids ≠ []) :
    resolveClosestLiveModule m ids = none ∨
    ∃ r, resolveClosestLiveModule m ids = some r ∧ r ∈ ids := by
  cases h : resolveClosestLiveModule m ids with
  | none => exact Or.inl rfl
  | some r => exact Or.inr ⟨r, rfl, resolve_mem m ids r h⟩

/-- Witness for C9 at a concrete pair. -/
theorem c9_suggestion_in_live_catalog_witness :
    resolveClosestLiveModule "slak:ActoinPostMessage" ["slack:ActionPostMessage"] = none ∨
    ∃ r, resolveClosestLiveModule "slak:ActoinPostMessage"
      ["slack:ActionPostMessage"] = some r ∧ r ∈ ["slack:ActionPostMessage"] :=
  c9_suggestion_in_live_catalog "slak:ActoinPostMessage"
    ["slack:ActionPostMessage"] (by decide)

/-! ## Claim C5 -/

/-- C5, counterexample: the resolver's token stage counts candidate tokens
with multiplicity, not as a set intersection.  For the target
`app:RedGreenBlue` and sole same-namespace candidate `app:RedRed`, the
specification score `|{red}| / |{red, green, blue}| = 1/3` is below the 0.5
floor, so per the claim no suggestion may be offered — yet the code scores
the candidate 2/3 and returns it. -/
theorem c5_counterexample :
    resolveClosestLiveModule "app:RedGreenBlue" ["app:RedRed"] =
      some "app:RedRed" ∧
    specTokenOverlapScore "RedGreenBlue" "RedRed" < 1 / 2 := by
  constructor
  · decide
  · show ((((firstOccurrences (tokenizeModulePart "RedRed")).filter
        (fun t => (firstOccurrences (tokenizeModulePart "RedGreenBlue")).contains t)).length : Rat) /
      ((firstOccurrences (tokenizeModulePart "RedGreenBlue")).length : Rat)) < 1 / 2
    have e1 : ((firstOccurrences (tokenizeModulePart "RedRed")).filter
        (fun t => (firstOccurrences (tokenizeModulePart "RedGreenBlue")).contains t)).length = 1 := by
      decide
    have e2 : (firstOccurrences (tokenizeModulePart "RedGreenBlue")).length = 3 := by
      decide
    rw [e1, e2]
    norm_num

/-- C5, amended: in the token-overlap stage (exact and normalized matching
failed, namespace parsed, same-namespace candidates non-empty), each
candidate scores `overlap / max(|targetTokens|, 1)` where `overlap` counts
candidate tokens lying in the target token set with multiplicity (not the
set intersection of the claim); the first highest-scoring candidate is
returned iff its score is at least 0.5, otherwise the resolver yields no
suggestion. -/
theorem c5_token_stage_spec (moduleId : String) (liveIds : List String)
    (appPart modulePart : String) (tailParts : List String)
    (h1 : liveIds.contains moduleId = false)
    (h2 : (liveIds.filter
      (fun id => normalizeModuleId id == normalizeModuleId moduleId)).length ≠ 1)
    (h3 : splitOnChar ':' moduleId = appPart :: modulePart :: tailParts)
    (h4 : appPart ≠ "") (h5 : modulePart ≠ "")
    (h6 : liveIds.filter (fun id => startsWithB id (appPart ++ ":")) ≠ []) :
    (∀ c, resolveClosestLiveModule moduleId liveIds = some c →
      c ∈ liveIds.filter (fun id => startsWithB id (appPart ++ ":")) ∧
      (1 : Rat) / 2 ≤
        candidateScore (firstOccurrences (tokenizeModulePart modulePart)) c ∧
      ∀ x ∈ liveIds.filter (fun id => startsWithB id (appPart ++ ":")),
        candidateScore (firstOccurrences (tokenizeModulePart modulePart)) x ≤
        candidateScore (firstOccurrences (tokenizeModulePart modulePart)) c) ∧
    (resolveClosestLiveModule moduleId liveIds = none →
      ∀ x ∈ liveIds.filter (fun id => startsWithB id (appPart ++ ":")),
        candidateScore (firstOccurrences (tokenizeModulePart modulePart)) x <
          (1 : Rat) / 2) := by
  have hlen : ((liveIds.filter
      (fun id => normalizeModuleId id == normalizeModuleId moduleId)).length == 1) = false := by
    cases hx : (liveIds.filter
        (fun id => normalizeModuleId id == normalizeModuleId moduleId)).length == 1 with
    | false => rfl
    | true => exact absurd (by simpa using hx) h2
  have hempty : (appPart == "" || modulePart == "") = false := by
    rw [beq_empty_false_of_ne appPart h4, beq_empty_false_of_ne modulePart h5]
    rfl
  obtain ⟨c0, cs, hcand⟩ : ∃ c0 cs,
      liveIds.filter (fun id => startsWithB id (appPart ++ ":")) = c0 :: cs := by
    cases hx : liveIds.filter (fun id => startsWithB id (appPart ++ ":")) with
    | nil => exact absurd hx h6
    | cons a b => exact ⟨a, b, rfl⟩
  have hnotempty : (liveIds.filter
      (fun id => startsWithB id (appPart ++ ":"))).isEmpty = false := by
    rw [hcand]
    rfl
  have hres : resolveClosestLiveModule moduleId liveIds =
      (match bestLoop (firstOccurrences (tokenizeModulePart modulePart)) none
        (liveIds.filter (fun id => startsWithB id (appPart ++ ":"))) with
      | none => none
      | some (id, score) =>
        if scoreLt score (1, 2) then none else some id) := by
    unfold resolveClosestLiveModule
    rw [h1]
    rw [if_neg (by decide)]
    simp only []
    rw [hlen]
    rw [if_neg (by decide)]
    rw [h3]
    simp only []
    rw [hempty]
    rw [if_neg (by decide)]
    rw [hnotempty]
    rw [if_neg (by decide)]
  obtain ⟨c, s, heq, hs, hmem, hbase, hmax⟩ :=
    bestLoop_spec (firstOccurrences (tokenizeModulePart modulePart)) cs c0
  have hloop : bestLoop (firstOccurrences (tokenizeModulePart modulePart)) none
      (liveIds.filter (fun id => startsWithB id (appPart ++ ":"))) = some (c, s) := by
    rw [hcand]
    exact heq
  rw [hloop] at hres
  simp only [] at hres
  subst hs
  have hcmem : c ∈ liveIds.filter (fun id => startsWithB id (appPart ++ ":")) := by
    rw [hcand]
    cases hmem with
    | inl h => exact h ▸ List.mem_cons_self c0 cs
    | inr h => exact List.mem_cons_of_mem c0 h
  have hallle : ∀ x ∈ liveIds.filter (fun id => startsWithB id (appPart ++ ":")),
      candidateScore (firstOccurrences (tokenizeModulePart modulePart)) x ≤
      candidateScore (firstOccurrences (tokenizeModulePart modulePart)) c := by
    intro x hx
    rw [hcand] at hx
    cases List.mem_cons.mp hx with
    | inl h => exact h ▸ hbase
    | inr h => exact hmax x h
  cases hthr : scoreLt
      (scorePair (firstOccurrences (tokenizeModulePart modulePart)) c) (1, 2) with
  | true =>
    rw [hthr, if_pos rfl] at hres
    constructor
    · intro c2 hc2
      rw [hres] at hc2
      exact Option.noConfusion hc2
    · intro _ x hx
      exact lt_of_le_of_lt (hallle x hx)
        ((scoreThreshold_iff (firstOccurrences (tokenizeModulePart modulePart)) c).mp hthr)
  | false =>
    rw [hthr, if_neg (by decide)] at hres
    constructor
    · intro c2 hc2
      rw [hres] at hc2
      injection hc2 with hceq
      subst hceq
      refine ⟨hcmem, ?_, hallle⟩
      have hiff := (scoreThreshold_iff
        (firstOccurrences (tokenizeModulePart modulePart)) c)
      rw [hthr] at hiff
      have hnot : ¬ (candidateScore
          (firstOccurrences (tokenizeModulePart modulePart)) c < (1 : Rat) / 2) := by
        intro hcon
        exact Bool.false_ne_true (hiff.mpr hcon)
      exact le_of_not_lt hnot
    · intro hc2
      rw [hres] at hc2
      exact Option.noConfusion hc2

/-- Witness for C5 at the target `app:SendData` with the single candidate
`app:ActionSendData`. -/
theorem c5_token_stage_spec_witness :
    (∀ c, resolveClosestLiveModule "app:SendData" ["app:ActionSendData"] = some c →
      c ∈ List.filter (fun id => startsWithB id ("app" ++ ":")) ["app:ActionSendData"] ∧
      (1 : Rat) / 2 ≤
        candidateScore (firstOccurrences (tokenizeModulePart "SendData")) c ∧
      ∀ x ∈ List.filter (fun id => startsWithB id ("app" ++ ":")) ["app:ActionSendData"],
        candidateScore (firstOccurrences (tokenizeModulePart "SendData")) x ≤
        candidateScore (firstOccurrences (tokenizeModulePart "SendData")) c) ∧
    (resolveClosestLiveModule "app:SendData" ["app:ActionSendData"] = none →
      ∀ x ∈ List.filter (fun id => startsWithB id ("app" ++ ":")) ["app:ActionSendData"],
        candidateScore (firstOccurrences (tokenizeModulePart "SendData")) x <
          (1 : Rat) / 2) :=
  c5_token_stage_spec "app:SendData" ["app:ActionSendData"] "app" "SendData" []
    (by decide) (by decide) (by decide) (by decide) (by decide) (by decide)

end MakeSrv
